import Mathlib

/-!
# PDF2MD — verification of the conversion driver (`PdfConverter.run`, src/app.py)

Shallow embedding of the worker loop of `PdfConverter.run`:

* the outer `while i < len(pages)` loop with its `if not self.is_running: break`,
* the inner `while retries < max_retries and not success` retry loop,
* the per-chunk streaming loop with its per-fragment `is_running` check,
* the exception handler with fixed 2-second backoff and, on exhaustion,
  the escalation to the operator (`user_choice_required.emit` + `QEventLoop`),
* the terminal `finished` / `error` signals.

Qt signals and `time.sleep` are modelled as an event trace.  The asynchronous
`stop()` call (which clears `is_running`) is modelled by a tick schedule: every
read of `is_running` consumes one tick, and `cancelAt = some k` means the flag
reads `False` from the k-th read onwards (the real flag is monotone: once
cleared it never becomes true again; `cancelAt = none` means `stop` is never
called).  Operator decisions (`user_choice`) are a finite list consumed one per
escalation; an escalation reached with the list empty models the driver blocked
forever in `loop.exec()`.  `UserChoice.other` models any `user_choice` value
different from the three strings the code compares against (e.g. left `None`).
-/

/-- Events observable from `PdfConverter.run`: the Qt signals `progress`,
`user_choice_required` (named `escalate` here), `finished`, `error`, plus the
`time.sleep(2)` backoff calls, in program order. -/
inductive Event
  | progress (ordinal : Nat) (text : String)
  | sleep (seconds : Nat)
  | escalate (ordinal : Nat)
  | finished (markdown : String)
  | error (message : String)
  deriving DecidableEq, Repr

/-- The operator's answer written into `self.user_choice` by
`MainWindow.ask_user_choice`: the strings `'retry'`, `'skip'`, `'end'`, or
anything else (`other`, e.g. left as the initial `None`). -/
inductive UserChoice
  | retry
  | skip
  | endConv
  | other
  deriving DecidableEq, Repr

/-- Outcome of one render-and-stream attempt for one page, as the environment
determines it: `ok frags` means rendering succeeded and the stream yields the
fragments `frags` then ends normally; `failure frags` means the fragments
`frags` are yielded and then an exception is raised (render failure is
`failure []`). -/
inductive AttemptOutcome
  | ok (frags : List String)
  | failure (frags : List String)
  deriving DecidableEq, Repr

/-- The fragments the attempt yields before ending (normally or by raising). -/
def AttemptOutcome.frags : AttemptOutcome → List String
  | .ok fs => fs
  | .failure fs => fs

/-- Whether the attempt ends by raising an exception. -/
def AttemptOutcome.isFailure : AttemptOutcome → Bool
  | .ok _ => false
  | .failure _ => true

/-- The environment of one `run` invocation: `attempts p j` is the outcome of
the (j+1)-th attempt ever made on absolute page index `p` (0-based, the value
passed to `doc.load_page`); `cancelAt` is the tick schedule of `stop()`;
`setup` is `some msg` when the code before the page loop (client construction,
`open("ocr_prompt.txt")`, `fitz.open`) raises with message `msg`; `decisions`
is the sequence of operator answers to successive escalations. -/
structure Env where
  attempts : Nat → Nat → AttemptOutcome
  cancelAt : Option Nat
  setup : Option String
  decisions : List UserChoice

/-- Value of `self.is_running` at the t-th read (0-based): true unless `stop()`
has taken effect by then. -/
def flagAt (cancelAt : Option Nat) (t : Nat) : Bool :=
  match cancelAt with
  | none => true
  | some k => t < k

/-- The string appended to `final_markdown` for a page with nonempty response:
`final_markdown += f"--- Page {i + 1} ---\n"` (only when
`include_page_numbers`) followed by `final_markdown += f"{page_response}\n\n"`
(src/app.py lines 74-76). -/
def pageBlock (includePageNumbers : Bool) (ordinal : Nat) (text : String) : String :=
  (if includePageNumbers then "--- Page " ++ toString ordinal ++ " ---\n" else "")
    ++ text ++ "\n\n"

/-- `str.strip()` of Python: drop whitespace from both ends (src/app.py line
108 applies it to `final_markdown` before emitting `finished`).  Implemented by
structural recursion on the character list so that it evaluates inside the
kernel. -/
def pyStrip (s : String) : String :=
  ⟨((s.data.dropWhile Char.isWhitespace).reverse.dropWhile Char.isWhitespace).reverse⟩

/-- Result of consuming the response stream of one attempt. -/
structure StreamRes where
  events : List Event
  resp : String
  ticks : Nat
  broke : Bool
  deriving DecidableEq, Repr

/-- The chunk loop (src/app.py lines 64-69): each iteration pulls the next
fragment, reads `is_running` (breaking if false), emits
`progress(i + 1, chunk.text)` and appends to `page_response`.  `broke` records
an exit via the `break` (cancellation observed mid-stream). -/
def streamConsume (cancelAt : Option Nat) (ordinal : Nat) :
    List String → Nat → String → StreamRes
  | [], t, acc => ⟨[], acc, t, false⟩
  | f :: rest, t, acc =>
    if flagAt cancelAt t then
      let s := streamConsume cancelAt ordinal rest (t + 1) (acc ++ f)
      ⟨Event.progress ordinal f :: s.events, s.resp, s.ticks, s.broke⟩
    else ⟨[], acc, t + 1, true⟩

/-- Result of one attempt (one iteration of the retry loop's `try` block). -/
structure AttemptRes where
  events : List Event
  ticks : Nat
  md : String
  excepted : Bool
  broke : Bool
  deriving DecidableEq, Repr

/-- The tail of the `try` block after the chunk loop, given the stream's
result `s`: when the attempt raises (outcome is a failure and the chunk loop
was not broken out of before pulling the fragment that raises) control reaches
the `except` handler with `final_markdown` untouched; otherwise the
`if self.is_running:` block (src/app.py lines 72-78) either appends the page's
block to `final_markdown` or emits `progress(i + 1, "No content generated.")`,
and `success = True` is reached. -/
def attemptFinish (cancelAt : Option Nat) (includePageNumbers : Bool) (i : Nat) (md : String)
    (isFail : Bool) (s : StreamRes) : AttemptRes :=
  if isFail && !s.broke then
    ⟨s.events, s.ticks, md, true, s.broke⟩
  else if flagAt cancelAt s.ticks then
    if s.resp ≠ "" then
      ⟨s.events, s.ticks + 1, md ++ pageBlock includePageNumbers (i + 1) s.resp, false, s.broke⟩
    else
      ⟨s.events ++ [Event.progress (i + 1) "No content generated."], s.ticks + 1, md, false,
        s.broke⟩
  else ⟨s.events, s.ticks + 1, md, false, s.broke⟩

/-- One iteration of the `try` block (src/app.py lines 54-79): render the page
and stream the model's response (the outcome being `env.attempts pageNum
attemptIdx`), then finish as `attemptFinish` describes. -/
def runAttempt (env : Env) (includePageNumbers : Bool) (pageNum i attemptIdx ticks : Nat)
    (md : String) : AttemptRes :=
  attemptFinish env.cancelAt includePageNumbers i md (env.attempts pageNum attemptIdx).isFailure
    (streamConsume env.cancelAt (i + 1) (env.attempts pageNum attemptIdx).frags ticks "")

/-- Result of a run of consecutive attempts within one retry budget. -/
structure SeqRes where
  events : List Event
  attemptIdx : Nat
  ticks : Nat
  md : String
  success : Bool
  broke : Bool
  deriving DecidableEq, Repr

/-- The retry loop restricted to one budget window: `attemptSeq n` runs the
`while retries < max_retries and not success` loop starting from
`retries = 3 - n`, up to the point where either an attempt succeeds or the
budget is exhausted (`retries` reaches 3).  After each failed attempt with
attempts remaining the code sleeps 2 seconds (src/app.py lines 81-85). -/
def attemptSeq (env : Env) (includePageNumbers : Bool) (pageNum i : Nat) :
    Nat → Nat → Nat → String → SeqRes
  | 0, j, t, md => ⟨[], j, t, md, false, false⟩
  | n + 1, j, t, md =>
    let a := runAttempt env includePageNumbers pageNum i j t md
    if a.excepted then
      match n with
      | 0 => ⟨a.events, j + 1, a.ticks, md, false, a.broke⟩
      | m + 1 =>
        let rest := attemptSeq env includePageNumbers pageNum i (m + 1) (j + 1) a.ticks md
        ⟨a.events ++ Event.sleep 2 :: rest.events, rest.attemptIdx, rest.ticks, rest.md,
          rest.success, a.broke || rest.broke⟩
    else ⟨a.events, j + 1, a.ticks, a.md, true, a.broke⟩

/-- How processing one page ends: advance to the next page (`i += 1`), return
after the user chose `'end'`, or block forever awaiting a decision. -/
inductive PageOutcome
  | proceed
  | abortEnd
  | blockedWait
  deriving DecidableEq, Repr

/-- Result of fully processing one page. -/
structure PageRes where
  events : List Event
  ticks : Nat
  md : String
  decisions : List UserChoice
  outcome : PageOutcome
  broke : Bool
  deriving DecidableEq, Repr

/-- The whole retry loop for one page, escalations included (src/app.py lines
49-103): run up to 3 attempts; on exhaustion emit `user_choice_required(i + 1)`
and block on a `QEventLoop` until the operator supplies a decision; `'retry'`
resets `retries` to 0 (a fresh budget of 3), `'skip'` sets `success = True`,
`'end'` clears `is_running`, emits `error("Conversion ended by user.")` and
returns, and any other value falls through every branch so the loop exits with
`retries = 3` and the driver advances to the next page. -/
def pageProcess.go (env : Env) (includePageNumbers : Bool) (pageNum i : Nat) :
    List UserChoice → Nat → Nat → String → PageRes
  | [], j, t, md =>
    let s := attemptSeq env includePageNumbers pageNum i 3 j t md
    if s.success then ⟨s.events, s.ticks, s.md, [], .proceed, s.broke⟩
    else ⟨s.events ++ [Event.escalate (i + 1)], s.ticks, s.md, [], .blockedWait, s.broke⟩
  | .retry :: ds, j, t, md =>
    let s := attemptSeq env includePageNumbers pageNum i 3 j t md
    if s.success then ⟨s.events, s.ticks, s.md, .retry :: ds, .proceed, s.broke⟩
    else
      let r := pageProcess.go env includePageNumbers pageNum i ds s.attemptIdx s.ticks s.md
      ⟨(s.events ++ [Event.escalate (i + 1)]) ++ r.events, r.ticks, r.md, r.decisions,
        r.outcome, s.broke || r.broke⟩
  | .skip :: ds, j, t, md =>
    let s := attemptSeq env includePageNumbers pageNum i 3 j t md
    if s.success then ⟨s.events, s.ticks, s.md, .skip :: ds, .proceed, s.broke⟩
    else ⟨s.events ++ [Event.escalate (i + 1)], s.ticks, s.md, ds, .proceed, s.broke⟩
  | .endConv :: ds, j, t, md =>
    let s := attemptSeq env includePageNumbers pageNum i 3 j t md
    if s.success then ⟨s.events, s.ticks, s.md, .endConv :: ds, .proceed, s.broke⟩
    else
      ⟨(s.events ++ [Event.escalate (i + 1)]) ++ [Event.error "Conversion ended by user."],
        s.ticks, s.md, ds, .abortEnd, s.broke⟩
  | .other :: ds, j, t, md =>
    let s := attemptSeq env includePageNumbers pageNum i 3 j t md
    if s.success then ⟨s.events, s.ticks, s.md, .other :: ds, .proceed, s.broke⟩
    else ⟨s.events ++ [Event.escalate (i + 1)], s.ticks, s.md, ds, .proceed, s.broke⟩

/-- Packaging of `pageProcess.go` with the driver's argument order. -/
def pageProcess (env : Env) (includePageNumbers : Bool) (pageNum i j t : Nat) (md : String)
    (decisions : List UserChoice) : PageRes :=
  pageProcess.go env includePageNumbers pageNum i decisions j t md

/-- How the page loop ends: normally (all pages done, or `break` on the
cleared flag), by the user's `'end'` decision, or blocked in an escalation. -/
inductive ExitKind
  | normal
  | aborted
  | blocked
  deriving DecidableEq, Repr

/-- Result of the outer page loop. -/
structure LoopRes where
  events : List Event
  ticks : Nat
  md : String
  decisions : List UserChoice
  exit : ExitKind
  brokeAt : Option Nat
  deriving DecidableEq, Repr

/-- The outer `while i < len(page_numbers_to_process)` loop (src/app.py lines
44-103), with its `if not self.is_running: break` at the top of each
iteration.  `fuel` is the number of pages still to process, `i` the 0-based
position within the range (the absolute page is `startPage - 1 + i`).
`brokeAt` records the ordinal of the first page whose stream loop observed the
cleared flag. -/
def pagesLoop (env : Env) (includePageNumbers : Bool) (startPage : Nat) :
    Nat → Nat → Nat → String → List UserChoice → LoopRes
  | 0, _, t, md, ds => ⟨[], t, md, ds, .normal, none⟩
  | fuel + 1, i, t, md, ds =>
    if flagAt env.cancelAt t then
      let p := pageProcess env includePageNumbers (startPage - 1 + i) i 0 (t + 1) md ds
      match p.outcome with
      | .proceed =>
        let rest := pagesLoop env includePageNumbers startPage fuel (i + 1) p.ticks p.md p.decisions
        ⟨p.events ++ rest.events, rest.ticks, rest.md, rest.decisions, rest.exit,
          if p.broke then some (i + 1) else rest.brokeAt⟩
      | .abortEnd =>
        ⟨p.events, p.ticks, p.md, p.decisions, .aborted, if p.broke then some (i + 1) else none⟩
      | .blockedWait =>
        ⟨p.events, p.ticks, p.md, p.decisions, .blocked, if p.broke then some (i + 1) else none⟩
    else ⟨[], t + 1, md, ds, .normal, none⟩

/-- How the whole invocation ends. -/
inductive RunExit
  | normal
  | aborted
  | blocked
  | fatal
  deriving DecidableEq, Repr

/-- Result of one invocation of `PdfConverter.run`: the event trace, the final
`final_markdown` value, the tick count before the final flag read, the exit
kind, the value of `is_running` at return, and the ordinal of the first page
whose streaming was interrupted by cancellation (if any). -/
structure RunRes where
  events : List Event
  md : String
  ticks : Nat
  exit : RunExit
  finalRunning : Bool
  brokeAt : Option Nat
  deriving DecidableEq, Repr

namespace PdfConverter

/-- `PdfConverter.run` (src/app.py lines 32-111): setup, the page loop over
`range(start_page - 1, end_page)` (so `end_page - (start_page - 1)` pages),
and the final `if self.is_running: self.finished.emit(final_markdown.strip())`.
A setup exception is caught by the outer handler and emitted as
`error(f"An unexpected error occurred: {e}")`. -/
def run (env : Env) (startPage endPage : Nat) (includePageNumbers : Bool) : RunRes :=
  match env.setup with
  | some msg =>
    ⟨[Event.error ("An unexpected error occurred: " ++ msg)], "", 0, .fatal,
      flagAt env.cancelAt 0, none⟩
  | none =>
    let n := endPage - (startPage - 1)
    let L := pagesLoop env includePageNumbers startPage n 0 0 "" env.decisions
    match L.exit with
    | .normal =>
      if flagAt env.cancelAt L.ticks then
        ⟨L.events ++ [Event.finished (pyStrip L.md)], L.md, L.ticks, .normal, true, L.brokeAt⟩
      else ⟨L.events, L.md, L.ticks, .normal, false, L.brokeAt⟩
    | .aborted => ⟨L.events, L.md, L.ticks, .aborted, false, L.brokeAt⟩
    | .blocked => ⟨L.events, L.md, L.ticks, .blocked, flagAt env.cancelAt L.ticks, L.brokeAt⟩

end PdfConverter

/-- Whether an event is the `finished` signal. -/
def Event.isFinished : Event → Bool
  | .finished _ => true
  | _ => false

/-- Whether an event is the `error` signal. -/
def Event.isError : Event → Bool
  | .error _ => true
  | _ => false

/-- The page ordinal an event is tagged with, when it has one. -/
def Event.ordinal : Event → Option Nat
  | .progress o _ => some o
  | .escalate o => some o
  | _ => none

/-- Number of `finished` events in a trace. -/
def finishedCount (evs : List Event) : Nat := (evs.filter Event.isFinished).length

/-- Number of `error` events in a trace. -/
def errorCount (evs : List Event) : Nat := (evs.filter Event.isError).length

/-! ## Expected behaviour of a page that succeeds on its first attempt
(read off src/app.py lines 64-79, no cancellation). -/

/-- Events a first-attempt-success page emits: one `progress` per fragment,
plus the `"No content generated."` progress event when the joined response is
empty. -/
def successEvents (ordinal : Nat) (frags : List String) : List Event :=
  frags.map (Event.progress ordinal)
    ++ (if String.join frags = "" then [Event.progress ordinal "No content generated."] else [])

/-- What a successful page contributes to `final_markdown`: its `pageBlock`
when its response is nonempty, nothing at all when it is empty (the
`if page_response:` guard, src/app.py line 73). -/
def successBlock (includePageNumbers : Bool) (ordinal : Nat) (text : String) : String :=
  if text = "" then "" else pageBlock includePageNumbers ordinal text

/-- Concatenated trace of pages `i, i+1, ..., i+n-1` when every page succeeds
on its first attempt with fragments `F k` for range position `k`. -/
def rangeEvents (F : Nat → List String) : Nat → Nat → List Event
  | _, 0 => []
  | i, n + 1 => successEvents (i + 1) (F i) ++ rangeEvents F (i + 1) n

/-- Concatenated markdown of pages `i, ..., i+n-1` in the same situation. -/
def rangeMd (includePageNumbers : Bool) (F : Nat → List String) : Nat → Nat → String
  | _, 0 => ""
  | i, n + 1 =>
    successBlock includePageNumbers (i + 1) (String.join (F i))
      ++ rangeMd includePageNumbers F (i + 1) n

/-! ## Definitions following the spec's words (for comparison with the code),
and concrete environments used in counterexamples and witnesses. -/

/-- Modelled from the spec (claim C1's words): the output Markdown is "the
concatenation, in ascending page order, of the per-page generated texts, each
preceded by its page-marker header if and only if the include-page-markers
flag is set, with the whole result's leading and trailing whitespace trimmed".
Applied to the list of per-page texts in range order. -/
def specC1Markdown (includePageNumbers : Bool) (texts : List String) : String :=
  pyStrip (String.join (texts.enum.map fun p =>
    (if includePageNumbers then "--- Page " ++ toString (p.1 + 1) ++ " ---\n" else "")
      ++ p.2))

/-- Modelled from the spec (claim C2's words): a page's contribution is "the
literal line `--- Page N ---` on its own line, followed by a blank line, then
the page's text, then a blank line". -/
def specC2Block (ordinal : Nat) (text : String) : String :=
  "--- Page " ++ toString ordinal ++ " ---\n\n" ++ text ++ "\n\n"

/-- Modelled from the spec (claim C3's words): an empty page "contributes an
empty text block to the output (marker still emitted if enabled, followed by
nothing)" — the marker line followed by the empty text. -/
def specC3EmptyContribution (ordinal : Nat) : String :=
  "--- Page " ++ toString ordinal ++ " ---\n"

/-- Environment where every attempt of every page succeeds with an empty
stream, `stop()` is never called and setup succeeds. -/
def envAllEmpty : Env where
  attempts _ _ := .ok []
  cancelAt := none
  setup := none
  decisions := []

/-- Environment where page 0 streams `"Hello"` and page 1 streams `"World"`,
each in one fragment, on every attempt. -/
def envHelloWorld : Env where
  attempts p _ := .ok [if p = 0 then "Hello" else "World"]
  cancelAt := none
  setup := none
  decisions := []

/-- Environment where every attempt of every page raises during rendering
(no fragments), and the operator answers `skip` to the first escalation. -/
def envRenderFail : Env where
  attempts _ _ := .failure []
  cancelAt := none
  setup := none
  decisions := [.skip]

/-- Environment where every attempt raises during rendering and the operator
answers `end` to the first escalation. -/
def envAbortFirst : Env where
  attempts _ _ := .failure []
  cancelAt := none
  setup := none
  decisions := [.endConv]

/-- Environment where every page streams three fragments and `stop()` takes
effect at the third flag read. -/
def envCancelMid : Env where
  attempts _ _ := .ok ["a", "b", "c"]
  cancelAt := some 3
  setup := none
  decisions := []

/-- Environment where every attempt raises during rendering, the operator
answers `skip`, and `stop()` takes effect at the second flag read (i.e. while
the escalation is outstanding). -/
def envStopDuringEscalation : Env where
  attempts _ _ := .failure []
  cancelAt := some 1
  setup := none
  decisions := [.skip]

/-- Environment where every attempt raises during rendering and the operator
answers with an unrecognised decision (models `user_choice` left `None`). -/
def envOtherDecision : Env where
  attempts _ _ := .failure []
  cancelAt := none
  setup := none
  decisions := [.other]

/-- Environment where page 0 fails once (one fragment `"x"` then an
exception) and then succeeds with `"Hi"`; all other pages succeed at once
with `"o"`. -/
def envFailOnceThenOk : Env where
  attempts p j := if p = 0 then (if j = 0 then .failure ["x"] else .ok ["Hi"]) else .ok ["o"]
  cancelAt := none
  setup := none
  decisions := []

/-- Environment identical to `envFailOnceThenOk` except that page 0 succeeds
with `"Hi"` already on its first attempt. -/
def envOkFirst : Env where
  attempts p _ := if p = 0 then .ok ["Hi"] else .ok ["o"]
  cancelAt := none
  setup := none
  decisions := []

/-! ## Basic lemmas -/

theorem String.joinCons (s : String) (l : List String) :
    String.join (s :: l) = s ++ String.join l := by
  simp [String.join_eq]; rfl

theorem flagAt_mono {c : Option Nat} {t t' : Nat} (h : flagAt c t = false) (hle : t ≤ t') :
    flagAt c t' = false := by
  cases c with
  | none => simp [flagAt] at h
  | some k => simp [flagAt] at h ⊢; omega

theorem flagAt_none (t : Nat) : flagAt none t = true := rfl

/-! ## Stream-loop lemmas -/

theorem streamConsume_ticks_le (c : Option Nat) (o : Nat) (fs : List String) (t : Nat)
    (acc : String) : t ≤ (streamConsume c o fs t acc).ticks := by
  induction fs generalizing t acc with
  | nil => simp [streamConsume]
  | cons f rest ih =>
    by_cases hf : flagAt c t = true
    · simp only [streamConsume, hf, if_true]
      exact le_trans (Nat.le_succ t) (ih (t + 1) (acc ++ f))
    · simp [streamConsume, hf]

theorem streamConsume_broke_flag {c : Option Nat} {o : Nat} {fs : List String} {t : Nat}
    {acc : String} (h : (streamConsume c o fs t acc).broke = true) :
    flagAt c (streamConsume c o fs t acc).ticks = false := by
  induction fs generalizing t acc with
  | nil => simp [streamConsume] at h
  | cons f rest ih =>
    by_cases hf : flagAt c t = true
    · simp only [streamConsume, hf, if_true] at h ⊢
      exact ih h
    · simp only [streamConsume, if_neg hf]
      exact flagAt_mono (by simpa using hf) (Nat.le_succ t)

theorem streamConsume_events_shape {c : Option Nat} {o : Nat} {fs : List String} {t : Nat}
    {acc : String} {e : Event} (h : e ∈ (streamConsume c o fs t acc).events) :
    ∃ txt, e = .progress o txt := by
  induction fs generalizing t acc with
  | nil => simp [streamConsume] at h
  | cons f rest ih =>
    by_cases hf : flagAt c t = true
    · simp only [streamConsume, hf, if_true, List.mem_cons] at h
      rcases h with h | h
      · exact ⟨f, h⟩
      · exact ih h
    · simp [streamConsume, hf] at h

theorem streamConsume_none (o : Nat) (fs : List String) (t : Nat) (acc : String) :
    streamConsume none o fs t acc =
      ⟨fs.map (Event.progress o), acc ++ String.join fs, t + fs.length, false⟩ := by
  induction fs generalizing t acc with
  | nil => simp [streamConsume, String.join]
  | cons f rest ih =>
    simp [streamConsume, flagAt, ih, String.joinCons, String.append_assoc]
    omega

/-! ## Lemmas about the tail of one attempt -/

theorem attemptFinish_of_fail {c : Option Nat} {inc : Bool} {i : Nat} {md : String} {f : Bool}
    {s : StreamRes} (hc : (f && !s.broke) = true) :
    attemptFinish c inc i md f s = ⟨s.events, s.ticks, md, true, s.broke⟩ := by
  unfold attemptFinish
  rw [if_pos hc]

theorem attemptFinish_run_text {c : Option Nat} {inc : Bool} {i : Nat} {md : String} {f : Bool}
    {s : StreamRes} (hc : ¬(f && !s.broke) = true) (hr : flagAt c s.ticks = true)
    (hresp : s.resp ≠ "") :
    attemptFinish c inc i md f s =
      ⟨s.events, s.ticks + 1, md ++ pageBlock inc (i + 1) s.resp, false, s.broke⟩ := by
  unfold attemptFinish
  rw [if_neg hc, if_pos hr, if_pos hresp]

theorem attemptFinish_run_empty {c : Option Nat} {inc : Bool} {i : Nat} {md : String} {f : Bool}
    {s : StreamRes} (hc : ¬(f && !s.broke) = true) (hr : flagAt c s.ticks = true)
    (hresp : s.resp = "") :
    attemptFinish c inc i md f s =
      ⟨s.events ++ [Event.progress (i + 1) "No content generated."], s.ticks + 1, md, false,
        s.broke⟩ := by
  unfold attemptFinish
  rw [if_neg hc, if_pos hr, if_neg (by simpa using hresp)]

theorem attemptFinish_run_stop {c : Option Nat} {inc : Bool} {i : Nat} {md : String} {f : Bool}
    {s : StreamRes} (hc : ¬(f && !s.broke) = true) (hr : ¬flagAt c s.ticks = true) :
    attemptFinish c inc i md f s = ⟨s.events, s.ticks + 1, md, false, s.broke⟩ := by
  unfold attemptFinish
  rw [if_neg hc, if_neg hr]

theorem attemptFinish_excepted_eq (c : Option Nat) (inc : Bool) (i : Nat) (md : String)
    (f : Bool) (s : StreamRes) :
    (attemptFinish c inc i md f s).excepted = (f && !s.broke) := by
  by_cases hc : (f && !s.broke) = true
  · rw [attemptFinish_of_fail hc, hc]
  · by_cases hr : flagAt c s.ticks = true
    · by_cases hresp : s.resp = ""
      · rw [attemptFinish_run_empty hc hr hresp]
        simpa using (Bool.not_eq_true _).mp hc
      · rw [attemptFinish_run_text hc hr hresp]
        simpa using (Bool.not_eq_true _).mp hc
    · rw [attemptFinish_run_stop hc hr]
      simpa using (Bool.not_eq_true _).mp hc

theorem attemptFinish_broke_eq (c : Option Nat) (inc : Bool) (i : Nat) (md : String)
    (f : Bool) (s : StreamRes) :
    (attemptFinish c inc i md f s).broke = s.broke := by
  by_cases hc : (f && !s.broke) = true
  · rw [attemptFinish_of_fail hc]
  · by_cases hr : flagAt c s.ticks = true
    · by_cases hresp : s.resp = ""
      · rw [attemptFinish_run_empty hc hr hresp]
      · rw [attemptFinish_run_text hc hr hresp]
    · rw [attemptFinish_run_stop hc hr]

theorem attemptFinish_ticks_le (c : Option Nat) (inc : Bool) (i : Nat) (md : String)
    (f : Bool) (s : StreamRes) :
    s.ticks ≤ (attemptFinish c inc i md f s).ticks := by
  by_cases hc : (f && !s.broke) = true
  · rw [attemptFinish_of_fail hc]
  · by_cases hr : flagAt c s.ticks = true
    · by_cases hresp : s.resp = ""
      · rw [attemptFinish_run_empty hc hr hresp]; exact Nat.le_succ _
      · rw [attemptFinish_run_text hc hr hresp]; exact Nat.le_succ _
    · rw [attemptFinish_run_stop hc hr]; exact Nat.le_succ _

theorem attemptFinish_events_shape {c : Option Nat} {inc : Bool} {i : Nat} {md : String}
    {f : Bool} {s : StreamRes} {e : Event} (h : e ∈ (attemptFinish c inc i md f s).events) :
    e ∈ s.events ∨ e = .progress (i + 1) "No content generated." := by
  by_cases hc : (f && !s.broke) = true
  · rw [attemptFinish_of_fail hc] at h; exact Or.inl h
  · by_cases hr : flagAt c s.ticks = true
    · by_cases hresp : s.resp = ""
      · rw [attemptFinish_run_empty hc hr hresp] at h
        simpa using h
      · rw [attemptFinish_run_text hc hr hresp] at h; exact Or.inl h
    · rw [attemptFinish_run_stop hc hr] at h; exact Or.inl h

/-! ## Single-attempt lemmas -/

theorem runAttempt_ticks_le (env : Env) (inc : Bool) (pn i j t : Nat) (md : String) :
    t ≤ (runAttempt env inc pn i j t md).ticks :=
  le_trans (streamConsume_ticks_le env.cancelAt (i + 1) (env.attempts pn j).frags t "")
    (attemptFinish_ticks_le _ _ _ _ _ _)

theorem runAttempt_excepted {env : Env} {inc : Bool} {pn i j t : Nat} {md : String}
    (h : (runAttempt env inc pn i j t md).excepted = true) :
    (runAttempt env inc pn i j t md).md = md ∧
      (runAttempt env inc pn i j t md).broke = false := by
  unfold runAttempt at h ⊢
  rw [attemptFinish_excepted_eq] at h
  rw [attemptFinish_of_fail h]
  refine ⟨rfl, ?_⟩
  simp only [Bool.and_eq_true, Bool.not_eq_true'] at h
  exact h.2

theorem runAttempt_broke {env : Env} {inc : Bool} {pn i j t : Nat} {md : String}
    (h : (runAttempt env inc pn i j t md).broke = true) :
    (runAttempt env inc pn i j t md).excepted = false ∧
      (runAttempt env inc pn i j t md).md = md ∧
      flagAt env.cancelAt (runAttempt env inc pn i j t md).ticks = false := by
  unfold runAttempt at h ⊢
  rw [attemptFinish_broke_eq] at h
  have hc : ¬((env.attempts pn i.succ.pred).isFailure
      && !(streamConsume env.cancelAt (i + 1) (env.attempts pn j).frags t "").broke) = true := by
    simp [h]
  have hc' : ¬((env.attempts pn j).isFailure
      && !(streamConsume env.cancelAt (i + 1) (env.attempts pn j).frags t "").broke) = true := by
    simp [h]
  have hr : ¬flagAt env.cancelAt
      (streamConsume env.cancelAt (i + 1) (env.attempts pn j).frags t "").ticks = true := by
    simp [streamConsume_broke_flag h]
  rw [attemptFinish_run_stop hc' hr]
  refine ⟨rfl, rfl, ?_⟩
  exact flagAt_mono (streamConsume_broke_flag h) (Nat.le_succ _)

theorem runAttempt_events_shape {env : Env} {inc : Bool} {pn i j t : Nat} {md : String}
    {e : Event} (h : e ∈ (runAttempt env inc pn i j t md).events) :
    ∃ txt, e = .progress (i + 1) txt := by
  unfold runAttempt at h
  rcases attemptFinish_events_shape h with h' | h'
  · exact streamConsume_events_shape h'
  · exact ⟨_, h'⟩

/-! ## Retry-loop lemmas -/

theorem attemptSeq_ticks_le (env : Env) (inc : Bool) (pn i : Nat) :
    ∀ (n j t : Nat) (md : String), t ≤ (attemptSeq env inc pn i n j t md).ticks := by
  intro n
  induction n with
  | zero => intro j t md; simp [attemptSeq]
  | succ n ih =>
    intro j t md
    cases n with
    | zero =>
      by_cases he : (runAttempt env inc pn i j t md).excepted = true
      · simp only [attemptSeq, he, if_true]
        exact runAttempt_ticks_le env inc pn i j t md
      · simp only [attemptSeq, he, if_false]
        exact runAttempt_ticks_le env inc pn i j t md
    | succ m =>
      by_cases he : (runAttempt env inc pn i j t md).excepted = true
      · simp only [attemptSeq, he, if_true]
        exact le_trans (runAttempt_ticks_le env inc pn i j t md)
          (ih (j + 1) (runAttempt env inc pn i j t md).ticks md)
      · simp only [attemptSeq, he, if_false]
        exact runAttempt_ticks_le env inc pn i j t md

theorem attemptSeq_md_of_fail {env : Env} {inc : Bool} {pn i : Nat} :
    ∀ {n j t : Nat} {md : String}, (attemptSeq env inc pn i n j t md).success = false →
      (attemptSeq env inc pn i n j t md).md = md := by
  intro n
  induction n with
  | zero => intro j t md _; simp [attemptSeq]
  | succ n ih =>
    intro j t md h
    cases n with
    | zero =>
      by_cases he : (runAttempt env inc pn i j t md).excepted = true
      · simp only [attemptSeq, he, if_true]
      · simp only [attemptSeq] at h
        rw [if_neg he] at h
        simp at h
    | succ m =>
      by_cases he : (runAttempt env inc pn i j t md).excepted = true
      · simp only [attemptSeq, he, if_true] at h ⊢
        exact ih h
      · simp only [attemptSeq] at h
        rw [if_neg he] at h
        simp at h

theorem attemptSeq_attemptIdx_le (env : Env) (inc : Bool) (pn i : Nat) :
    ∀ (n j t : Nat) (md : String), (attemptSeq env inc pn i n j t md).attemptIdx ≤ j + n := by
  intro n
  induction n with
  | zero => intro j t md; simp [attemptSeq]
  | succ n ih =>
    intro j t md
    cases n with
    | zero =>
      by_cases he : (runAttempt env inc pn i j t md).excepted = true
      · simp [attemptSeq, he]
      · simp [attemptSeq, he]
    | succ m =>
      by_cases he : (runAttempt env inc pn i j t md).excepted = true
      · simp only [attemptSeq, he, if_true]
        calc (attemptSeq env inc pn i (m + 1) (j + 1) (runAttempt env inc pn i j t md).ticks
                md).attemptIdx ≤ (j + 1) + (m + 1) := ih (j + 1) _ md
          _ = j + (m + 1 + 1) := by omega
      · simp only [attemptSeq]
        rw [if_neg he]
        simp only
        omega

theorem attemptSeq_events_shape {env : Env} {inc : Bool} {pn i : Nat} :
    ∀ {n j t : Nat} {md : String} {e : Event}, e ∈ (attemptSeq env inc pn i n j t md).events →
      (∃ txt, e = .progress (i + 1) txt) ∨ e = .sleep 2 := by
  intro n
  induction n with
  | zero => intro j t md e h; simp [attemptSeq] at h
  | succ n ih =>
    intro j t md e h
    cases n with
    | zero =>
      by_cases he : (runAttempt env inc pn i j t md).excepted = true
      · simp only [attemptSeq, he, if_true] at h
        exact Or.inl (runAttempt_events_shape h)
      · simp only [attemptSeq, he, if_false] at h
        exact Or.inl (runAttempt_events_shape h)
    | succ m =>
      by_cases he : (runAttempt env inc pn i j t md).excepted = true
      · simp only [attemptSeq, he, if_true, List.mem_append, List.mem_cons] at h
        rcases h with h | h | h
        · exact Or.inl (runAttempt_events_shape h)
        · exact Or.inr h
        · exact ih h
      · simp only [attemptSeq, he, if_false] at h
        exact Or.inl (runAttempt_events_shape h)

theorem attemptSeq_broke {env : Env} {inc : Bool} {pn i : Nat} :
    ∀ {n j t : Nat} {md : String}, (attemptSeq env inc pn i n j t md).broke = true →
      (attemptSeq env inc pn i n j t md).success = true ∧
        (attemptSeq env inc pn i n j t md).md = md ∧
        flagAt env.cancelAt (attemptSeq env inc pn i n j t md).ticks = false := by
  intro n
  induction n with
  | zero => intro j t md h; simp [attemptSeq] at h
  | succ n ih =>
    intro j t md h
    cases n with
    | zero =>
      by_cases he : (runAttempt env inc pn i j t md).excepted = true
      · simp only [attemptSeq, he, if_true] at h
        exact absurd ((runAttempt_excepted he).2) (by simp [h])
      · simp only [attemptSeq, he, if_false] at h ⊢
        rcases runAttempt_broke h with ⟨_, h2, h3⟩
        exact ⟨rfl, h2, h3⟩
    | succ m =>
      by_cases he : (runAttempt env inc pn i j t md).excepted = true
      · simp only [attemptSeq, he, if_true] at h ⊢
        have hb : (runAttempt env inc pn i j t md).broke = false := (runAttempt_excepted he).2
        rw [hb] at h
        simp only [Bool.false_or] at h
        exact ih h
      · simp only [attemptSeq, he, if_false] at h ⊢
        rcases runAttempt_broke h with ⟨_, h2, h3⟩
        exact ⟨rfl, h2, h3⟩

/-! ## Page-level unfolding equations -/

theorem pageProcess_of_success {env : Env} {inc : Bool} {pn i j t : Nat} {md : String}
    (h : (attemptSeq env inc pn i 3 j t md).success = true) (ds : List UserChoice) :
    pageProcess env inc pn i j t md ds =
      ⟨(attemptSeq env inc pn i 3 j t md).events, (attemptSeq env inc pn i 3 j t md).ticks,
        (attemptSeq env inc pn i 3 j t md).md, ds, .proceed,
        (attemptSeq env inc pn i 3 j t md).broke⟩ := by
  cases ds with
  | nil => simp only [pageProcess, pageProcess.go, h, if_true]
  | cons d ds => cases d <;> simp only [pageProcess, pageProcess.go, h, if_true]

theorem pageProcess_of_fail_nil {env : Env} {inc : Bool} {pn i j t : Nat} {md : String}
    (h : (attemptSeq env inc pn i 3 j t md).success = false) :
    pageProcess env inc pn i j t md [] =
      ⟨(attemptSeq env inc pn i 3 j t md).events ++ [Event.escalate (i + 1)],
        (attemptSeq env inc pn i 3 j t md).ticks, (attemptSeq env inc pn i 3 j t md).md, [],
        .blockedWait, (attemptSeq env inc pn i 3 j t md).broke⟩ := by
  simp only [pageProcess, pageProcess.go]
  rw [if_neg (by simp [h])]

theorem pageProcess_of_fail_retry {env : Env} {inc : Bool} {pn i j t : Nat} {md : String}
    (h : (attemptSeq env inc pn i 3 j t md).success = false) (ds : List UserChoice) :
    pageProcess env inc pn i j t md (.retry :: ds) =
      ⟨((attemptSeq env inc pn i 3 j t md).events ++ [Event.escalate (i + 1)])
          ++ (pageProcess env inc pn i (attemptSeq env inc pn i 3 j t md).attemptIdx
              (attemptSeq env inc pn i 3 j t md).ticks (attemptSeq env inc pn i 3 j t md).md
              ds).events,
        (pageProcess env inc pn i (attemptSeq env inc pn i 3 j t md).attemptIdx
          (attemptSeq env inc pn i 3 j t md).ticks (attemptSeq env inc pn i 3 j t md).md
          ds).ticks,
        (pageProcess env inc pn i (attemptSeq env inc pn i 3 j t md).attemptIdx
          (attemptSeq env inc pn i 3 j t md).ticks (attemptSeq env inc pn i 3 j t md).md
          ds).md,
        (pageProcess env inc pn i (attemptSeq env inc pn i 3 j t md).attemptIdx
          (attemptSeq env inc pn i 3 j t md).ticks (attemptSeq env inc pn i 3 j t md).md
          ds).decisions,
        (pageProcess env inc pn i (attemptSeq env inc pn i 3 j t md).attemptIdx
          (attemptSeq env inc pn i 3 j t md).ticks (attemptSeq env inc pn i 3 j t md).md
          ds).outcome,
        (attemptSeq env inc pn i 3 j t md).broke
          || (pageProcess env inc pn i (attemptSeq env inc pn i 3 j t md).attemptIdx
              (attemptSeq env inc pn i 3 j t md).ticks (attemptSeq env inc pn i 3 j t md).md
              ds).broke⟩ := by
  simp only [pageProcess, pageProcess.go]
  rw [if_neg (by simp [h])]

theorem pageProcess_of_fail_skip {env : Env} {inc : Bool} {pn i j t : Nat} {md : String}
    (h : (attemptSeq env inc pn i 3 j t md).success = false) (ds : List UserChoice) :
    pageProcess env inc pn i j t md (.skip :: ds) =
      ⟨(attemptSeq env inc pn i 3 j t md).events ++ [Event.escalate (i + 1)],
        (attemptSeq env inc pn i 3 j t md).ticks, (attemptSeq env inc pn i 3 j t md).md, ds,
        .proceed, (attemptSeq env inc pn i 3 j t md).broke⟩ := by
  simp only [pageProcess, pageProcess.go]
  rw [if_neg (by simp [h])]

theorem pageProcess_of_fail_endConv {env : Env} {inc : Bool} {pn i j t : Nat} {md : String}
    (h : (attemptSeq env inc pn i 3 j t md).success = false) (ds : List UserChoice) :
    pageProcess env inc pn i j t md (.endConv :: ds) =
      ⟨((attemptSeq env inc pn i 3 j t md).events ++ [Event.escalate (i + 1)])
          ++ [Event.error "Conversion ended by user."],
        (attemptSeq env inc pn i 3 j t md).ticks, (attemptSeq env inc pn i 3 j t md).md, ds,
        .abortEnd, (attemptSeq env inc pn i 3 j t md).broke⟩ := by
  simp only [pageProcess, pageProcess.go]
  rw [if_neg (by simp [h])]

theorem pageProcess_of_fail_other {env : Env} {inc : Bool} {pn i j t : Nat} {md : String}
    (h : (attemptSeq env inc pn i 3 j t md).success = false) (ds : List UserChoice) :
    pageProcess env inc pn i j t md (.other :: ds) =
      ⟨(attemptSeq env inc pn i 3 j t md).events ++ [Event.escalate (i + 1)],
        (attemptSeq env inc pn i 3 j t md).ticks, (attemptSeq env inc pn i 3 j t md).md, ds,
        .proceed, (attemptSeq env inc pn i 3 j t md).broke⟩ := by
  simp only [pageProcess, pageProcess.go]
  rw [if_neg (by simp [h])]

/-! ## Event-count helpers -/

theorem finishedCount_append (a b : List Event) :
    finishedCount (a ++ b) = finishedCount a + finishedCount b := by
  simp [finishedCount, List.filter_append]

theorem errorCount_append (a b : List Event) :
    errorCount (a ++ b) = errorCount a + errorCount b := by
  simp [errorCount, List.filter_append]

theorem finishedCount_eq_zero {evs : List Event} (h : ∀ e ∈ evs, e.isFinished = false) :
    finishedCount evs = 0 := by
  simp only [finishedCount, List.length_eq_zero, List.filter_eq_nil_iff]
  intro e he
  simp [h e he]

theorem errorCount_eq_zero {evs : List Event} (h : ∀ e ∈ evs, e.isError = false) :
    errorCount evs = 0 := by
  simp only [errorCount, List.length_eq_zero, List.filter_eq_nil_iff]
  intro e he
  simp [h e he]

/-! ## Page-level structural lemmas -/

theorem pageProcess_events_shape {env : Env} {inc : Bool} {pn i : Nat} :
    ∀ {ds : List UserChoice} {j t : Nat} {md : String} {e : Event},
      e ∈ (pageProcess env inc pn i j t md ds).events →
      (∃ txt, e = .progress (i + 1) txt) ∨ e = .sleep 2 ∨ e = .escalate (i + 1) ∨
        e = .error "Conversion ended by user." := by
  intro ds
  induction ds with
  | nil =>
    intro j t md e h
    by_cases hs : (attemptSeq env inc pn i 3 j t md).success = true
    · rw [pageProcess_of_success hs] at h
      rcases attemptSeq_events_shape h with h' | h'
      · exact Or.inl h'
      · exact Or.inr (Or.inl h')
    · rw [pageProcess_of_fail_nil (Bool.not_eq_true _ |>.mp hs)] at h
      simp only [List.mem_append, List.mem_singleton] at h
      rcases h with h | h
      · rcases attemptSeq_events_shape h with h' | h'
        · exact Or.inl h'
        · exact Or.inr (Or.inl h')
      · exact Or.inr (Or.inr (Or.inl h))
  | cons d ds ih =>
    intro j t md e h
    by_cases hs : (attemptSeq env inc pn i 3 j t md).success = true
    · rw [pageProcess_of_success hs] at h
      rcases attemptSeq_events_shape h with h' | h'
      · exact Or.inl h'
      · exact Or.inr (Or.inl h')
    · have hs' := Bool.not_eq_true _ |>.mp hs
      have hbase : ∀ e, e ∈ (attemptSeq env inc pn i 3 j t md).events ++ [Event.escalate (i + 1)] →
          (∃ txt, e = .progress (i + 1) txt) ∨ e = .sleep 2 ∨ e = .escalate (i + 1) ∨
            e = .error "Conversion ended by user." := by
        intro e' h'
        simp only [List.mem_append, List.mem_singleton] at h'
        rcases h' with h' | h'
        · rcases attemptSeq_events_shape h' with h'' | h''
          · exact Or.inl h''
          · exact Or.inr (Or.inl h'')
        · exact Or.inr (Or.inr (Or.inl h'))
      cases d with
      | retry =>
        rw [pageProcess_of_fail_retry hs'] at h
        simp only [List.mem_append] at h
        rcases h with (h | h) | h
        · exact hbase e (List.mem_append.mpr (Or.inl h))
        · exact hbase e (List.mem_append.mpr (Or.inr h))
        · exact ih h
      | skip =>
        rw [pageProcess_of_fail_skip hs'] at h
        exact hbase e h
      | endConv =>
        rw [pageProcess_of_fail_endConv hs'] at h
        simp only [List.mem_append, List.mem_singleton] at h
        rcases h with (h | h) | h
        · exact hbase e (List.mem_append.mpr (Or.inl h))
        · exact hbase e (List.mem_append.mpr (Or.inr (by simp [h])))
        · exact Or.inr (Or.inr (Or.inr h))
      | other =>
        rw [pageProcess_of_fail_other hs'] at h
        exact hbase e h

theorem pageProcess_finishedCount (env : Env) (inc : Bool) (pn i : Nat) (ds : List UserChoice)
    (j t : Nat) (md : String) :
    finishedCount (pageProcess env inc pn i j t md ds).events = 0 := by
  apply finishedCount_eq_zero
  intro e he
  rcases pageProcess_events_shape he with ⟨txt, h⟩ | h | h | h <;> subst h <;> rfl

theorem pageProcess_errorCount {env : Env} {inc : Bool} {pn i : Nat} :
    ∀ (ds : List UserChoice) (j t : Nat) (md : String),
      errorCount (pageProcess env inc pn i j t md ds).events =
        (if (pageProcess env inc pn i j t md ds).outcome = .abortEnd then 1 else 0) := by
  have hseq : ∀ (j t : Nat) (md : String),
      errorCount (attemptSeq env inc pn i 3 j t md).events = 0 := by
    intro j t md
    apply errorCount_eq_zero
    intro e he
    rcases attemptSeq_events_shape he with ⟨txt, h⟩ | h <;> subst h <;> rfl
  intro ds
  induction ds with
  | nil =>
    intro j t md
    by_cases hs : (attemptSeq env inc pn i 3 j t md).success = true
    · rw [pageProcess_of_success hs]
      simp [hseq j t md]
    · rw [pageProcess_of_fail_nil (Bool.not_eq_true _ |>.mp hs)]
      rw [errorCount_append, hseq j t md]
      simp [errorCount, Event.isError]
  | cons d ds ih =>
    intro j t md
    by_cases hs : (attemptSeq env inc pn i 3 j t md).success = true
    · rw [pageProcess_of_success hs]
      simp [hseq j t md]
    · have hs' := Bool.not_eq_true _ |>.mp hs
      cases d with
      | retry =>
        rw [pageProcess_of_fail_retry hs']
        simp only [errorCount_append]
        rw [ih, hseq j t md]
        simp [errorCount, Event.isError]
      | skip =>
        rw [pageProcess_of_fail_skip hs']
        rw [errorCount_append, hseq j t md]
        simp [errorCount, Event.isError]
      | endConv =>
        rw [pageProcess_of_fail_endConv hs']
        rw [errorCount_append, errorCount_append, hseq j t md]
        simp [errorCount, Event.isError]
      | other =>
        rw [pageProcess_of_fail_other hs']
        rw [errorCount_append, hseq j t md]
        simp [errorCount, Event.isError]

theorem pageProcess_ticks_le {env : Env} {inc : Bool} {pn i : Nat} :
    ∀ (ds : List UserChoice) (j t : Nat) (md : String),
      t ≤ (pageProcess env inc pn i j t md ds).ticks := by
  intro ds
  induction ds with
  | nil =>
    intro j t md
    by_cases hs : (attemptSeq env inc pn i 3 j t md).success = true
    · rw [pageProcess_of_success hs]
      exact attemptSeq_ticks_le env inc pn i 3 j t md
    · rw [pageProcess_of_fail_nil (Bool.not_eq_true _ |>.mp hs)]
      exact attemptSeq_ticks_le env inc pn i 3 j t md
  | cons d ds ih =>
    intro j t md
    by_cases hs : (attemptSeq env inc pn i 3 j t md).success = true
    · rw [pageProcess_of_success hs]
      exact attemptSeq_ticks_le env inc pn i 3 j t md
    · have hs' := Bool.not_eq_true _ |>.mp hs
      cases d with
      | retry =>
        rw [pageProcess_of_fail_retry hs']
        exact le_trans (attemptSeq_ticks_le env inc pn i 3 j t md) (ih _ _ _)
      | skip =>
        rw [pageProcess_of_fail_skip hs']
        exact attemptSeq_ticks_le env inc pn i 3 j t md
      | endConv =>
        rw [pageProcess_of_fail_endConv hs']
        exact attemptSeq_ticks_le env inc pn i 3 j t md
      | other =>
        rw [pageProcess_of_fail_other hs']
        exact attemptSeq_ticks_le env inc pn i 3 j t md

theorem pageProcess_broke {env : Env} {inc : Bool} {pn i : Nat} :
    ∀ {ds : List UserChoice} {j t : Nat} {md : String},
      (pageProcess env inc pn i j t md ds).broke = true →
      (pageProcess env inc pn i j t md ds).outcome = .proceed ∧
        (pageProcess env inc pn i j t md ds).md = md ∧
        flagAt env.cancelAt (pageProcess env inc pn i j t md ds).ticks = false := by
  intro ds
  induction ds with
  | nil =>
    intro j t md h
    by_cases hs : (attemptSeq env inc pn i 3 j t md).success = true
    · rw [pageProcess_of_success hs] at h ⊢
      rcases attemptSeq_broke h with ⟨_, h2, h3⟩
      exact ⟨rfl, h2, h3⟩
    · rw [pageProcess_of_fail_nil (Bool.not_eq_true _ |>.mp hs)] at h
      rcases attemptSeq_broke h with ⟨h1, _, _⟩
      exact absurd h1 hs
  | cons d ds ih =>
    intro j t md h
    by_cases hs : (attemptSeq env inc pn i 3 j t md).success = true
    · rw [pageProcess_of_success hs] at h ⊢
      rcases attemptSeq_broke h with ⟨_, h2, h3⟩
      exact ⟨rfl, h2, h3⟩
    · have hs' := Bool.not_eq_true _ |>.mp hs
      have hsb : (attemptSeq env inc pn i 3 j t md).broke = false := by
        by_cases hb : (attemptSeq env inc pn i 3 j t md).broke = true
        · exact absurd (attemptSeq_broke hb).1 hs
        · simpa using hb
      cases d with
      | retry =>
        rw [pageProcess_of_fail_retry hs'] at h ⊢
        simp only [hsb, Bool.false_or] at h
        rcases ih h with ⟨h1, h2, h3⟩
        refine ⟨h1, ?_, h3⟩
        rw [h2]
        exact attemptSeq_md_of_fail hs'
      | skip =>
        rw [pageProcess_of_fail_skip hs'] at h
        simp only at h
        rw [hsb] at h
        simp at h
      | endConv =>
        rw [pageProcess_of_fail_endConv hs'] at h
        simp only at h
        rw [hsb] at h
        simp at h
      | other =>
        rw [pageProcess_of_fail_other hs'] at h
        simp only at h
        rw [hsb] at h
        simp at h

theorem pageProcess_abort_shape {env : Env} {inc : Bool} {pn i : Nat} :
    ∀ {ds : List UserChoice} {j t : Nat} {md : String},
      (pageProcess env inc pn i j t md ds).outcome = .abortEnd →
      ∃ pre, (pageProcess env inc pn i j t md ds).events =
        pre ++ [Event.escalate (i + 1), Event.error "Conversion ended by user."] := by
  intro ds
  induction ds with
  | nil =>
    intro j t md h
    by_cases hs : (attemptSeq env inc pn i 3 j t md).success = true
    · rw [pageProcess_of_success hs] at h
      simp at h
    · rw [pageProcess_of_fail_nil (Bool.not_eq_true _ |>.mp hs)] at h
      simp at h
  | cons d ds ih =>
    intro j t md h
    by_cases hs : (attemptSeq env inc pn i 3 j t md).success = true
    · rw [pageProcess_of_success hs] at h
      simp at h
    · have hs' := Bool.not_eq_true _ |>.mp hs
      cases d with
      | retry =>
        rw [pageProcess_of_fail_retry hs'] at h ⊢
        simp only at h ⊢
        rcases ih h with ⟨pre, hpre⟩
        exact ⟨(attemptSeq env inc pn i 3 j t md).events ++ [Event.escalate (i + 1)] ++ pre, by
          rw [hpre]
          simp [List.append_assoc]⟩
      | skip =>
        rw [pageProcess_of_fail_skip hs'] at h
        simp at h
      | endConv =>
        rw [pageProcess_of_fail_endConv hs']
        exact ⟨(attemptSeq env inc pn i 3 j t md).events, by simp⟩
      | other =>
        rw [pageProcess_of_fail_other hs'] at h
        simp at h

/-! ## Page-loop unfolding equations -/

theorem pagesLoop_zero (env : Env) (inc : Bool) (sp i t : Nat) (md : String)
    (ds : List UserChoice) :
    pagesLoop env inc sp 0 i t md ds = ⟨[], t, md, ds, .normal, none⟩ := rfl

theorem pagesLoop_stop {env : Env} {inc : Bool} {sp : Nat} {fuel i t : Nat} {md : String}
    {ds : List UserChoice} (h : ¬flagAt env.cancelAt t = true) :
    pagesLoop env inc sp (fuel + 1) i t md ds = ⟨[], t + 1, md, ds, .normal, none⟩ := by
  simp only [pagesLoop]
  rw [if_neg h]

theorem pagesLoop_proceed {env : Env} {inc : Bool} {sp : Nat} {fuel i t : Nat} {md : String}
    {ds : List UserChoice} (hr : flagAt env.cancelAt t = true)
    (hp : (pageProcess env inc (sp - 1 + i) i 0 (t + 1) md ds).outcome = .proceed) :
    pagesLoop env inc sp (fuel + 1) i t md ds =
      ⟨(pageProcess env inc (sp - 1 + i) i 0 (t + 1) md ds).events
          ++ (pagesLoop env inc sp fuel (i + 1)
              (pageProcess env inc (sp - 1 + i) i 0 (t + 1) md ds).ticks
              (pageProcess env inc (sp - 1 + i) i 0 (t + 1) md ds).md
              (pageProcess env inc (sp - 1 + i) i 0 (t + 1) md ds).decisions).events,
        (pagesLoop env inc sp fuel (i + 1)
          (pageProcess env inc (sp - 1 + i) i 0 (t + 1) md ds).ticks
          (pageProcess env inc (sp - 1 + i) i 0 (t + 1) md ds).md
          (pageProcess env inc (sp - 1 + i) i 0 (t + 1) md ds).decisions).ticks,
        (pagesLoop env inc sp fuel (i + 1)
          (pageProcess env inc (sp - 1 + i) i 0 (t + 1) md ds).ticks
          (pageProcess env inc (sp - 1 + i) i 0 (t + 1) md ds).md
          (pageProcess env inc (sp - 1 + i) i 0 (t + 1) md ds).decisions).md,
        (pagesLoop env inc sp fuel (i + 1)
          (pageProcess env inc (sp - 1 + i) i 0 (t + 1) md ds).ticks
          (pageProcess env inc (sp - 1 + i) i 0 (t + 1) md ds).md
          (pageProcess env inc (sp - 1 + i) i 0 (t + 1) md ds).decisions).decisions,
        (pagesLoop env inc sp fuel (i + 1)
          (pageProcess env inc (sp - 1 + i) i 0 (t + 1) md ds).ticks
          (pageProcess env inc (sp - 1 + i) i 0 (t + 1) md ds).md
          (pageProcess env inc (sp - 1 + i) i 0 (t + 1) md ds).decisions).exit,
        if (pageProcess env inc (sp - 1 + i) i 0 (t + 1) md ds).broke then some (i + 1)
        else (pagesLoop env inc sp fuel (i + 1)
          (pageProcess env inc (sp - 1 + i) i 0 (t + 1) md ds).ticks
          (pageProcess env inc (sp - 1 + i) i 0 (t + 1) md ds).md
          (pageProcess env inc (sp - 1 + i) i 0 (t + 1) md ds).decisions).brokeAt⟩ := by
  simp only [pagesLoop, hr, if_true, hp]

theorem pagesLoop_abort {env : Env} {inc : Bool} {sp : Nat} {fuel i t : Nat} {md : String}
    {ds : List UserChoice} (hr : flagAt env.cancelAt t = true)
    (hp : (pageProcess env inc (sp - 1 + i) i 0 (t + 1) md ds).outcome = .abortEnd) :
    pagesLoop env inc sp (fuel + 1) i t md ds =
      ⟨(pageProcess env inc (sp - 1 + i) i 0 (t + 1) md ds).events,
        (pageProcess env inc (sp - 1 + i) i 0 (t + 1) md ds).ticks,
        (pageProcess env inc (sp - 1 + i) i 0 (t + 1) md ds).md,
        (pageProcess env inc (sp - 1 + i) i 0 (t + 1) md ds).decisions, .aborted,
        if (pageProcess env inc (sp - 1 + i) i 0 (t + 1) md ds).broke then some (i + 1)
        else none⟩ := by
  simp only [pagesLoop, hr, if_true, hp]

theorem pagesLoop_blocked {env : Env} {inc : Bool} {sp : Nat} {fuel i t : Nat} {md : String}
    {ds : List UserChoice} (hr : flagAt env.cancelAt t = true)
    (hp : (pageProcess env inc (sp - 1 + i) i 0 (t + 1) md ds).outcome = .blockedWait) :
    pagesLoop env inc sp (fuel + 1) i t md ds =
      ⟨(pageProcess env inc (sp - 1 + i) i 0 (t + 1) md ds).events,
        (pageProcess env inc (sp - 1 + i) i 0 (t + 1) md ds).ticks,
        (pageProcess env inc (sp - 1 + i) i 0 (t + 1) md ds).md,
        (pageProcess env inc (sp - 1 + i) i 0 (t + 1) md ds).decisions, .blocked,
        if (pageProcess env inc (sp - 1 + i) i 0 (t + 1) md ds).broke then some (i + 1)
        else none⟩ := by
  simp only [pagesLoop, hr, if_true, hp]

/-! ## Page-loop structural lemmas -/

theorem pageProcess_ordinal {env : Env} {inc : Bool} {pn i j t : Nat} {md : String}
    {ds : List UserChoice} {e : Event} (he : e ∈ (pageProcess env inc pn i j t md ds).events)
    {o : Nat} (ho : e.ordinal = some o) : o = i + 1 := by
  rcases pageProcess_events_shape he with ⟨txt, h⟩ | h | h | h <;> subst h <;>
    simp [Event.ordinal] at ho
  · omega
  · omega

theorem pagesLoop_ticks_le (env : Env) (inc : Bool) (sp : Nat) :
    ∀ (fuel i t : Nat) (md : String) (ds : List UserChoice),
      t ≤ (pagesLoop env inc sp fuel i t md ds).ticks := by
  intro fuel
  induction fuel with
  | zero => intro i t md ds; simp [pagesLoop_zero]
  | succ fuel ih =>
    intro i t md ds
    by_cases hr : flagAt env.cancelAt t = true
    · rcases hq : (pageProcess env inc (sp - 1 + i) i 0 (t + 1) md ds).outcome with _ | _ | _
      · rw [pagesLoop_proceed hr hq]
        exact le_trans (Nat.le_succ t)
          (le_trans (@pageProcess_ticks_le env inc (sp - 1 + i) i ds 0 (t + 1) md)
            (ih (i + 1) _ _ _))
      · rw [pagesLoop_abort hr hq]
        exact le_trans (Nat.le_succ t) (@pageProcess_ticks_le env inc (sp - 1 + i) i ds 0 (t + 1) md)
      · rw [pagesLoop_blocked hr hq]
        exact le_trans (Nat.le_succ t) (@pageProcess_ticks_le env inc (sp - 1 + i) i ds 0 (t + 1) md)
    · rw [pagesLoop_stop hr]
      exact Nat.le_succ t

theorem pagesLoop_finishedCount (env : Env) (inc : Bool) (sp : Nat) :
    ∀ (fuel i t : Nat) (md : String) (ds : List UserChoice),
      finishedCount (pagesLoop env inc sp fuel i t md ds).events = 0 := by
  intro fuel
  induction fuel with
  | zero => intro i t md ds; simp [pagesLoop_zero, finishedCount]
  | succ fuel ih =>
    intro i t md ds
    by_cases hr : flagAt env.cancelAt t = true
    · rcases hq : (pageProcess env inc (sp - 1 + i) i 0 (t + 1) md ds).outcome with _ | _ | _
      · rw [pagesLoop_proceed hr hq]
        simp only [finishedCount_append, pageProcess_finishedCount, ih]
      · rw [pagesLoop_abort hr hq]
        simp only [pageProcess_finishedCount]
      · rw [pagesLoop_blocked hr hq]
        simp only [pageProcess_finishedCount]
    · rw [pagesLoop_stop hr]
      simp [finishedCount]

theorem pagesLoop_errorCount (env : Env) (inc : Bool) (sp : Nat) :
    ∀ (fuel i t : Nat) (md : String) (ds : List UserChoice),
      errorCount (pagesLoop env inc sp fuel i t md ds).events =
        (if (pagesLoop env inc sp fuel i t md ds).exit = .aborted then 1 else 0) := by
  intro fuel
  induction fuel with
  | zero => intro i t md ds; simp [pagesLoop_zero, errorCount]
  | succ fuel ih =>
    intro i t md ds
    have hcount := @pageProcess_errorCount env inc (sp - 1 + i) i ds 0 (t + 1) md
    by_cases hr : flagAt env.cancelAt t = true
    · rcases hq : (pageProcess env inc (sp - 1 + i) i 0 (t + 1) md ds).outcome with _ | _ | _
      · rw [pagesLoop_proceed hr hq]
        rw [hq] at hcount
        simp only [errorCount_append, ih, hcount]
        simp
      · rw [pagesLoop_abort hr hq]
        rw [hq] at hcount
        simp [hcount]
      · rw [pagesLoop_blocked hr hq]
        rw [hq] at hcount
        simp [hcount]
    · rw [pagesLoop_stop hr]
      simp [errorCount]

theorem pagesLoop_from_stopped {env : Env} {inc : Bool} {sp : Nat} {fuel i t : Nat}
    {md : String} {ds : List UserChoice} (h : flagAt env.cancelAt t = false) :
    (pagesLoop env inc sp fuel i t md ds).events = [] ∧
      (pagesLoop env inc sp fuel i t md ds).md = md ∧
      (pagesLoop env inc sp fuel i t md ds).exit = .normal ∧
      (pagesLoop env inc sp fuel i t md ds).brokeAt = none ∧
      flagAt env.cancelAt (pagesLoop env inc sp fuel i t md ds).ticks = false := by
  cases fuel with
  | zero => simp [pagesLoop_zero, h]
  | succ fuel =>
    rw [pagesLoop_stop (by simp [h])]
    exact ⟨rfl, rfl, rfl, rfl, flagAt_mono h (Nat.le_succ t)⟩

theorem pagesLoop_abort_ex {env : Env} {inc : Bool} {sp : Nat} :
    ∀ {fuel i t : Nat} {md : String} {ds : List UserChoice},
      (pagesLoop env inc sp fuel i t md ds).exit = .aborted →
      ∃ q, i ≤ q ∧
        (∃ pre, (pagesLoop env inc sp fuel i t md ds).events =
          pre ++ [Event.escalate (q + 1), Event.error "Conversion ended by user."]) ∧
        (∀ e ∈ (pagesLoop env inc sp fuel i t md ds).events, ∀ o, e.ordinal = some o →
          o ≤ q + 1) := by
  intro fuel
  induction fuel with
  | zero => intro i t md ds h; simp [pagesLoop_zero] at h
  | succ fuel ih =>
    intro i t md ds h
    by_cases hr : flagAt env.cancelAt t = true
    · rcases hq : (pageProcess env inc (sp - 1 + i) i 0 (t + 1) md ds).outcome with _ | _ | _
      · rw [pagesLoop_proceed hr hq] at h ⊢
        simp only at h ⊢
        rcases ih h with ⟨q, hq1, ⟨pre, hpre⟩, hord⟩
        refine ⟨q, le_trans (Nat.le_succ i) hq1, ?_, ?_⟩
        · exact ⟨(pageProcess env inc (sp - 1 + i) i 0 (t + 1) md ds).events ++ pre, by
            rw [hpre, List.append_assoc]⟩
        · intro e he o ho
          rcases List.mem_append.mp he with he' | he'
          · have := pageProcess_ordinal he' ho
            omega
          · exact hord e he' o ho
      · rw [pagesLoop_abort hr hq] at h ⊢
        simp only at h ⊢
        rcases pageProcess_abort_shape hq with ⟨pre, hpre⟩
        refine ⟨i, le_refl i, ⟨pre, hpre⟩, ?_⟩
        intro e he o ho
        have := pageProcess_ordinal he ho
        omega
      · rw [pagesLoop_blocked hr hq] at h
        simp at h
    · rw [pagesLoop_stop hr] at h
      simp at h

theorem pagesLoop_broke_ex {env : Env} {inc : Bool} {sp : Nat} :
    ∀ {fuel i t : Nat} {md : String} {ds : List UserChoice} {q : Nat},
      (pagesLoop env inc sp fuel i t md ds).brokeAt = some q →
      (pagesLoop env inc sp fuel i t md ds).exit = .normal ∧
        i + 1 ≤ q ∧
        (∀ e ∈ (pagesLoop env inc sp fuel i t md ds).events, ∀ o, e.ordinal = some o →
          o ≤ q) ∧
        flagAt env.cancelAt (pagesLoop env inc sp fuel i t md ds).ticks = false := by
  intro fuel
  induction fuel with
  | zero => intro i t md ds q h; simp [pagesLoop_zero] at h
  | succ fuel ih =>
    intro i t md ds q h
    by_cases hr : flagAt env.cancelAt t = true
    · rcases hq : (pageProcess env inc (sp - 1 + i) i 0 (t + 1) md ds).outcome with _ | _ | _
      · rw [pagesLoop_proceed hr hq] at h ⊢
        simp only at h ⊢
        by_cases hb : (pageProcess env inc (sp - 1 + i) i 0 (t + 1) md ds).broke = true
        · rw [if_pos hb] at h
          rcases pageProcess_broke hb with ⟨_, _, hflag⟩
          rcases @pagesLoop_from_stopped env inc sp fuel (i + 1)
            (pageProcess env inc (sp - 1 + i) i 0 (t + 1) md ds).ticks
            (pageProcess env inc (sp - 1 + i) i 0 (t + 1) md ds).md
            (pageProcess env inc (sp - 1 + i) i 0 (t + 1) md ds).decisions hflag with
            ⟨hev, _, hexit, _, hfl⟩
          have hqq : q = i + 1 := by
            simp at h
            omega
          subst hqq
          refine ⟨hexit, le_refl _, ?_, hfl⟩
          intro e he o ho
          rw [hev, List.append_nil] at he
          have := pageProcess_ordinal he ho
          omega
        · rw [if_neg hb] at h
          rcases ih h with ⟨hexit, hq1, hord, hfl⟩
          refine ⟨hexit, by omega, ?_, hfl⟩
          intro e he o ho
          rcases List.mem_append.mp he with he' | he'
          · have := pageProcess_ordinal he' ho
            omega
          · exact hord e he' o ho
      · rw [pagesLoop_abort hr hq] at h
        simp only at h
        by_cases hb : (pageProcess env inc (sp - 1 + i) i 0 (t + 1) md ds).broke = true
        · rcases pageProcess_broke hb with ⟨ho, _, _⟩
          rw [hq] at ho
          exact absurd ho (by simp)
        · rw [if_neg hb] at h
          simp at h
      · rw [pagesLoop_blocked hr hq] at h
        simp only at h
        by_cases hb : (pageProcess env inc (sp - 1 + i) i 0 (t + 1) md ds).broke = true
        · rcases pageProcess_broke hb with ⟨ho, _, _⟩
          rw [hq] at ho
          exact absurd ho (by simp)
        · rw [if_neg hb] at h
          simp at h
    · rw [pagesLoop_stop hr] at h
      simp at h

/-! ## Behaviour without cancellation -/

theorem runAttempt_none_ok {env : Env} {inc : Bool} {pn i j t : Nat} {md : String}
    {fs : List String} (hc : env.cancelAt = none) (h : env.attempts pn j = .ok fs) :
    runAttempt env inc pn i j t md =
      ⟨successEvents (i + 1) fs, t + fs.length + 1,
        md ++ successBlock inc (i + 1) (String.join fs), false, false⟩ := by
  unfold runAttempt
  rw [h, hc]
  simp only [AttemptOutcome.isFailure, AttemptOutcome.frags]
  rw [streamConsume_none]
  by_cases hj : String.join fs = ""
  · rw [attemptFinish_run_empty (by simp) (by rfl) (by simp [String.empty_append, hj])]
    simp [successEvents, successBlock, hj, String.append_empty]
  · rw [attemptFinish_run_text (by simp) (by rfl) (by simp [String.empty_append, hj])]
    simp [successEvents, successBlock, hj, String.empty_append]

theorem runAttempt_none_failure {env : Env} {inc : Bool} {pn i j t : Nat} {md : String}
    {fs : List String} (hc : env.cancelAt = none) (h : env.attempts pn j = .failure fs) :
    runAttempt env inc pn i j t md =
      ⟨fs.map (Event.progress (i + 1)), t + fs.length, md, true, false⟩ := by
  unfold runAttempt
  rw [h, hc]
  simp only [AttemptOutcome.isFailure, AttemptOutcome.frags]
  rw [streamConsume_none]
  rw [attemptFinish_of_fail (by simp)]

theorem attemptSeq3_none_firstOk {env : Env} {inc : Bool} {pn i j t : Nat} {md : String}
    {fs : List String} (hc : env.cancelAt = none) (h : env.attempts pn j = .ok fs) :
    attemptSeq env inc pn i 3 j t md =
      ⟨successEvents (i + 1) fs, j + 1, t + fs.length + 1,
        md ++ successBlock inc (i + 1) (String.join fs), true, false⟩ := by
  have ha := @runAttempt_none_ok env inc pn i j t md fs hc h
  simp only [attemptSeq, ha]
  simp

theorem attemptSeq_none_failsThenOk {env : Env} {inc : Bool} {pn i : Nat} :
    ∀ (k n j t : Nat) (md : String) (g : Nat → List String) (F : List String),
      env.cancelAt = none → k < n →
      (∀ a, a < k → env.attempts pn (j + a) = .failure (g a)) →
      env.attempts pn (j + k) = .ok F →
      (attemptSeq env inc pn i n j t md).success = true ∧
        (attemptSeq env inc pn i n j t md).md =
          md ++ successBlock inc (i + 1) (String.join F) ∧
        (attemptSeq env inc pn i n j t md).attemptIdx = j + k + 1 ∧
        (attemptSeq env inc pn i n j t md).broke = false := by
  intro k
  induction k with
  | zero =>
    intro n j t md g F hc hk hfail hok
    simp only [Nat.add_zero] at hok
    have ha := @runAttempt_none_ok env inc pn i j t md F hc hok
    rcases n with _ | n
    · omega
    rcases n with _ | m
    · simp [attemptSeq, ha]
    · simp [attemptSeq, ha]
  | succ s ih =>
    intro n j t md g F hc hk hfail hok
    have hfail0 : env.attempts pn j = .failure (g 0) := by
      have := hfail 0 (by omega)
      simpa using this
    have ha := @runAttempt_none_failure env inc pn i j t md (g 0) hc hfail0
    rcases n with _ | n
    · omega
    rcases n with _ | m
    · omega
    have hrec := ih (m + 1) (j + 1) (runAttempt env inc pn i j t md).ticks md
      (fun a => g (a + 1)) F hc (by omega)
      (by
        intro a halt
        have := hfail (a + 1) (by omega)
        have harr : j + (a + 1) = j + 1 + a := by omega
        rw [harr] at this
        exact this)
      (by
        have harr : j + (s + 1) = j + 1 + s := by omega
        rw [harr] at hok
        exact hok)
    have hexc : (runAttempt env inc pn i j t md).excepted = true := by rw [ha]
    simp only [attemptSeq, hexc, if_true]
    rcases hrec with ⟨h1, h2, h3, h4⟩
    refine ⟨h1, h2, ?_, ?_⟩
    · rw [h3]; omega
    · rw [ha] at h4
      simp only at h4
      simp [ha, h4]

theorem pageProcess_none_firstOk {env : Env} {inc : Bool} {pn i j t : Nat} {md : String}
    {fs : List String} (hc : env.cancelAt = none) (h : env.attempts pn j = .ok fs)
    (ds : List UserChoice) :
    pageProcess env inc pn i j t md ds =
      ⟨successEvents (i + 1) fs, t + fs.length + 1,
        md ++ successBlock inc (i + 1) (String.join fs), ds, .proceed, false⟩ := by
  have hs := @attemptSeq3_none_firstOk env inc pn i j t md fs hc h
  rw [pageProcess_of_success (by rw [hs])]
  rw [hs]

theorem pageProcess_none_failsThenOk {env : Env} {inc : Bool} {pn i j t : Nat} {md : String}
    (k : Nat) (g : Nat → List String) (F : List String) (ds : List UserChoice)
    (hc : env.cancelAt = none) (hk : k < 3)
    (hfail : ∀ a, a < k → env.attempts pn (j + a) = .failure (g a))
    (hok : env.attempts pn (j + k) = .ok F) :
    (pageProcess env inc pn i j t md ds).outcome = .proceed ∧
      (pageProcess env inc pn i j t md ds).md = md ++ successBlock inc (i + 1) (String.join F) ∧
      (pageProcess env inc pn i j t md ds).decisions = ds ∧
      (pageProcess env inc pn i j t md ds).broke = false := by
  rcases attemptSeq_none_failsThenOk k 3 j t md g F hc hk hfail hok with ⟨h1, h2, _, h4⟩
  rw [pageProcess_of_success h1]
  exact ⟨rfl, h2, rfl, h4⟩

theorem pagesLoop_allSuccess {env : Env} {inc : Bool} {sp : Nat} {F : Nat → List String} :
    ∀ (fuel i t : Nat) (md : String) (ds : List UserChoice),
      env.cancelAt = none →
      (∀ k, i ≤ k → k < i + fuel → env.attempts (sp - 1 + k) 0 = .ok (F k)) →
      (pagesLoop env inc sp fuel i t md ds).events = rangeEvents F i fuel ∧
        (pagesLoop env inc sp fuel i t md ds).md = md ++ rangeMd inc F i fuel ∧
        (pagesLoop env inc sp fuel i t md ds).decisions = ds ∧
        (pagesLoop env inc sp fuel i t md ds).exit = .normal ∧
        (pagesLoop env inc sp fuel i t md ds).brokeAt = none := by
  intro fuel
  induction fuel with
  | zero =>
    intro i t md ds hc hF
    simp [pagesLoop_zero, rangeEvents, rangeMd, String.append_empty]
  | succ fuel ih =>
    intro i t md ds hc hF
    have hr : flagAt env.cancelAt t = true := by rw [hc]; rfl
    have hp := @pageProcess_none_firstOk env inc (sp - 1 + i) i 0 (t + 1) md (F i) hc
      (hF i (le_refl i) (by omega)) ds
    have hout : (pageProcess env inc (sp - 1 + i) i 0 (t + 1) md ds).outcome = .proceed := by
      rw [hp]
    rw [pagesLoop_proceed hr hout]
    rw [hp]
    simp only
    rcases ih (i + 1) (t + 1 + (F i).length + 1)
      (md ++ successBlock inc (i + 1) (String.join (F i))) ds hc
      (by intro k hk1 hk2; exact hF k (by omega) (by omega)) with ⟨e1, e2, e3, e4, e5⟩
    refine ⟨?_, ?_, e3, e4, ?_⟩
    · rw [e1]
      simp [rangeEvents]
    · rw [e2]
      simp [rangeMd, String.append_assoc]
    · rw [e5]
      simp

/-! ## Unfolding `PdfConverter.run` -/

theorem PdfConverter.run_fatal {env : Env} {sp ep : Nat} {inc : Bool} {msg : String}
    (h : env.setup = some msg) :
    PdfConverter.run env sp ep inc =
      ⟨[Event.error ("An unexpected error occurred: " ++ msg)], "", 0, .fatal,
        flagAt env.cancelAt 0, none⟩ := by
  unfold PdfConverter.run
  rw [h]

theorem PdfConverter.run_normal_finished {env : Env} {sp ep : Nat} {inc : Bool}
    (h : env.setup = none)
    (hexit : (pagesLoop env inc sp (ep - (sp - 1)) 0 0 "" env.decisions).exit = .normal)
    (hflag : flagAt env.cancelAt
      (pagesLoop env inc sp (ep - (sp - 1)) 0 0 "" env.decisions).ticks = true) :
    PdfConverter.run env sp ep inc =
      ⟨(pagesLoop env inc sp (ep - (sp - 1)) 0 0 "" env.decisions).events
          ++ [Event.finished (pyStrip (pagesLoop env inc sp (ep - (sp - 1)) 0 0 "" env.decisions).md)],
        (pagesLoop env inc sp (ep - (sp - 1)) 0 0 "" env.decisions).md,
        (pagesLoop env inc sp (ep - (sp - 1)) 0 0 "" env.decisions).ticks, .normal, true,
        (pagesLoop env inc sp (ep - (sp - 1)) 0 0 "" env.decisions).brokeAt⟩ := by
  unfold PdfConverter.run
  rw [h]
  simp only [hexit, hflag, if_true]

theorem PdfConverter.run_normal_stopped {env : Env} {sp ep : Nat} {inc : Bool}
    (h : env.setup = none)
    (hexit : (pagesLoop env inc sp (ep - (sp - 1)) 0 0 "" env.decisions).exit = .normal)
    (hflag : flagAt env.cancelAt
      (pagesLoop env inc sp (ep - (sp - 1)) 0 0 "" env.decisions).ticks = false) :
    PdfConverter.run env sp ep inc =
      ⟨(pagesLoop env inc sp (ep - (sp - 1)) 0 0 "" env.decisions).events,
        (pagesLoop env inc sp (ep - (sp - 1)) 0 0 "" env.decisions).md,
        (pagesLoop env inc sp (ep - (sp - 1)) 0 0 "" env.decisions).ticks, .normal, false,
        (pagesLoop env inc sp (ep - (sp - 1)) 0 0 "" env.decisions).brokeAt⟩ := by
  unfold PdfConverter.run
  rw [h]
  simp only [hexit, hflag]
  simp

theorem PdfConverter.run_aborted {env : Env} {sp ep : Nat} {inc : Bool}
    (h : env.setup = none)
    (hexit : (pagesLoop env inc sp (ep - (sp - 1)) 0 0 "" env.decisions).exit = .aborted) :
    PdfConverter.run env sp ep inc =
      ⟨(pagesLoop env inc sp (ep - (sp - 1)) 0 0 "" env.decisions).events,
        (pagesLoop env inc sp (ep - (sp - 1)) 0 0 "" env.decisions).md,
        (pagesLoop env inc sp (ep - (sp - 1)) 0 0 "" env.decisions).ticks, .aborted, false,
        (pagesLoop env inc sp (ep - (sp - 1)) 0 0 "" env.decisions).brokeAt⟩ := by
  unfold PdfConverter.run
  rw [h]
  simp only [hexit]

theorem PdfConverter.run_blocked {env : Env} {sp ep : Nat} {inc : Bool}
    (h : env.setup = none)
    (hexit : (pagesLoop env inc sp (ep - (sp - 1)) 0 0 "" env.decisions).exit = .blocked) :
    PdfConverter.run env sp ep inc =
      ⟨(pagesLoop env inc sp (ep - (sp - 1)) 0 0 "" env.decisions).events,
        (pagesLoop env inc sp (ep - (sp - 1)) 0 0 "" env.decisions).md,
        (pagesLoop env inc sp (ep - (sp - 1)) 0 0 "" env.decisions).ticks, .blocked,
        flagAt env.cancelAt (pagesLoop env inc sp (ep - (sp - 1)) 0 0 "" env.decisions).ticks,
        (pagesLoop env inc sp (ep - (sp - 1)) 0 0 "" env.decisions).brokeAt⟩ := by
  unfold PdfConverter.run
  rw [h]
  simp only [hexit]

/-! ## Retry-loop unfolding equations -/

theorem attemptSeq_one_exc {env : Env} {inc : Bool} {pn i j t : Nat} {md : String}
    (he : (runAttempt env inc pn i j t md).excepted = true) :
    attemptSeq env inc pn i 1 j t md =
      ⟨(runAttempt env inc pn i j t md).events, j + 1, (runAttempt env inc pn i j t md).ticks,
        md, false, (runAttempt env inc pn i j t md).broke⟩ := by
  simp [attemptSeq, he]

theorem attemptSeq_one_ok {env : Env} {inc : Bool} {pn i j t : Nat} {md : String}
    (he : ¬(runAttempt env inc pn i j t md).excepted = true) :
    attemptSeq env inc pn i 1 j t md =
      ⟨(runAttempt env inc pn i j t md).events, j + 1, (runAttempt env inc pn i j t md).ticks,
        (runAttempt env inc pn i j t md).md, true, (runAttempt env inc pn i j t md).broke⟩ := by
  simp only [attemptSeq]
  rw [if_neg he]

theorem attemptSeq_succ2_exc {env : Env} {inc : Bool} {pn i : Nat} {m j t : Nat} {md : String}
    (he : (runAttempt env inc pn i j t md).excepted = true) :
    attemptSeq env inc pn i (m + 2) j t md =
      ⟨(runAttempt env inc pn i j t md).events ++ Event.sleep 2
          :: (attemptSeq env inc pn i (m + 1) (j + 1) (runAttempt env inc pn i j t md).ticks
              md).events,
        (attemptSeq env inc pn i (m + 1) (j + 1) (runAttempt env inc pn i j t md).ticks
          md).attemptIdx,
        (attemptSeq env inc pn i (m + 1) (j + 1) (runAttempt env inc pn i j t md).ticks md).ticks,
        (attemptSeq env inc pn i (m + 1) (j + 1) (runAttempt env inc pn i j t md).ticks md).md,
        (attemptSeq env inc pn i (m + 1) (j + 1) (runAttempt env inc pn i j t md).ticks
          md).success,
        (runAttempt env inc pn i j t md).broke
          || (attemptSeq env inc pn i (m + 1) (j + 1) (runAttempt env inc pn i j t md).ticks
              md).broke⟩ := by
  simp only [attemptSeq, he, if_true]

theorem attemptSeq_succ2_ok {env : Env} {inc : Bool} {pn i : Nat} {m j t : Nat} {md : String}
    (he : ¬(runAttempt env inc pn i j t md).excepted = true) :
    attemptSeq env inc pn i (m + 2) j t md =
      ⟨(runAttempt env inc pn i j t md).events, j + 1, (runAttempt env inc pn i j t md).ticks,
        (runAttempt env inc pn i j t md).md, true, (runAttempt env inc pn i j t md).broke⟩ := by
  simp only [attemptSeq]
  rw [if_neg he]

/-! ## Congruence without cancellation: everything except tick counts is
independent of the starting tick and depends only on the page's attempt
outcomes. -/

theorem runAttempt_congr {env1 env2 : Env} {inc : Bool} {pn i j t1 t2 : Nat} {md : String}
    (h1 : env1.cancelAt = none) (h2 : env2.cancelAt = none)
    (hagree : env1.attempts pn j = env2.attempts pn j) :
    (runAttempt env1 inc pn i j t1 md).events = (runAttempt env2 inc pn i j t2 md).events ∧
      (runAttempt env1 inc pn i j t1 md).md = (runAttempt env2 inc pn i j t2 md).md ∧
      (runAttempt env1 inc pn i j t1 md).excepted = (runAttempt env2 inc pn i j t2 md).excepted ∧
      (runAttempt env1 inc pn i j t1 md).broke = (runAttempt env2 inc pn i j t2 md).broke := by
  rcases ho : env1.attempts pn j with fs | fs
  · rw [@runAttempt_none_ok env1 inc pn i j t1 md fs h1 ho,
      @runAttempt_none_ok env2 inc pn i j t2 md fs h2 (by rw [← hagree, ho])]
    exact ⟨rfl, rfl, rfl, rfl⟩
  · rw [@runAttempt_none_failure env1 inc pn i j t1 md fs h1 ho,
      @runAttempt_none_failure env2 inc pn i j t2 md fs h2 (by rw [← hagree, ho])]
    exact ⟨rfl, rfl, rfl, rfl⟩

theorem attemptSeq_congr {env1 env2 : Env} {inc : Bool} {pn i : Nat}
    (h1 : env1.cancelAt = none) (h2 : env2.cancelAt = none)
    (hagree : ∀ a, env1.attempts pn a = env2.attempts pn a) :
    ∀ (n j t1 t2 : Nat) (md : String),
      (attemptSeq env1 inc pn i n j t1 md).events = (attemptSeq env2 inc pn i n j t2 md).events ∧
        (attemptSeq env1 inc pn i n j t1 md).md = (attemptSeq env2 inc pn i n j t2 md).md ∧
        (attemptSeq env1 inc pn i n j t1 md).attemptIdx
          = (attemptSeq env2 inc pn i n j t2 md).attemptIdx ∧
        (attemptSeq env1 inc pn i n j t1 md).success
          = (attemptSeq env2 inc pn i n j t2 md).success ∧
        (attemptSeq env1 inc pn i n j t1 md).broke = (attemptSeq env2 inc pn i n j t2 md).broke := by
  intro n
  induction n with
  | zero => intro j t1 t2 md; simp [attemptSeq]
  | succ n ih =>
    intro j t1 t2 md
    rcases @runAttempt_congr env1 env2 inc pn i j t1 t2 md h1 h2 (hagree j) with
      ⟨ce, cm, cx, cb⟩
    cases n with
    | zero =>
      by_cases he : (runAttempt env1 inc pn i j t1 md).excepted = true
      · have he2 : (runAttempt env2 inc pn i j t2 md).excepted = true := by rw [← cx]; exact he
        rw [attemptSeq_one_exc he, attemptSeq_one_exc he2]
        exact ⟨ce, rfl, rfl, rfl, cb⟩
      · have he2 : ¬(runAttempt env2 inc pn i j t2 md).excepted = true := by rw [← cx]; exact he
        rw [attemptSeq_one_ok he, attemptSeq_one_ok he2]
        exact ⟨ce, cm, rfl, rfl, cb⟩
    | succ m =>
      by_cases he : (runAttempt env1 inc pn i j t1 md).excepted = true
      · have he2 : (runAttempt env2 inc pn i j t2 md).excepted = true := by rw [← cx]; exact he
        rw [attemptSeq_succ2_exc he, attemptSeq_succ2_exc he2]
        rcases ih (j + 1) (runAttempt env1 inc pn i j t1 md).ticks
          (runAttempt env2 inc pn i j t2 md).ticks md with ⟨re, rm, ra, rs, rb⟩
        refine ⟨?_, rm, ra, rs, ?_⟩
        · rw [ce, re]
        · rw [cb, rb]
      · have he2 : ¬(runAttempt env2 inc pn i j t2 md).excepted = true := by rw [← cx]; exact he
        rw [attemptSeq_succ2_ok he, attemptSeq_succ2_ok he2]
        exact ⟨ce, cm, rfl, rfl, cb⟩

theorem pageProcess_congr {env1 env2 : Env} {inc : Bool} {pn i : Nat}
    (h1 : env1.cancelAt = none) (h2 : env2.cancelAt = none)
    (hagree : ∀ a, env1.attempts pn a = env2.attempts pn a) :
    ∀ (ds : List UserChoice) (j t1 t2 : Nat) (md : String),
      (pageProcess env1 inc pn i j t1 md ds).events
          = (pageProcess env2 inc pn i j t2 md ds).events ∧
        (pageProcess env1 inc pn i j t1 md ds).md = (pageProcess env2 inc pn i j t2 md ds).md ∧
        (pageProcess env1 inc pn i j t1 md ds).decisions
          = (pageProcess env2 inc pn i j t2 md ds).decisions ∧
        (pageProcess env1 inc pn i j t1 md ds).outcome
          = (pageProcess env2 inc pn i j t2 md ds).outcome ∧
        (pageProcess env1 inc pn i j t1 md ds).broke
          = (pageProcess env2 inc pn i j t2 md ds).broke := by
  intro ds
  induction ds with
  | nil =>
    intro j t1 t2 md
    rcases attemptSeq_congr h1 h2 hagree 3 j t1 t2 md with ⟨ce, cm, ca, cs, cb⟩
    by_cases hs : (attemptSeq env1 inc pn i 3 j t1 md).success = true
    · have hs2 : (attemptSeq env2 inc pn i 3 j t2 md).success = true := by rw [← cs]; exact hs
      rw [pageProcess_of_success hs, pageProcess_of_success hs2]
      exact ⟨ce, cm, rfl, rfl, cb⟩
    · have hs' := Bool.not_eq_true _ |>.mp hs
      have hs2' : (attemptSeq env2 inc pn i 3 j t2 md).success = false := by rw [← cs]; exact hs'
      rw [pageProcess_of_fail_nil hs', pageProcess_of_fail_nil hs2']
      refine ⟨?_, cm, rfl, rfl, cb⟩
      rw [ce]
  | cons d ds ih =>
    intro j t1 t2 md
    rcases attemptSeq_congr h1 h2 hagree 3 j t1 t2 md with ⟨ce, cm, ca, cs, cb⟩
    by_cases hs : (attemptSeq env1 inc pn i 3 j t1 md).success = true
    · have hs2 : (attemptSeq env2 inc pn i 3 j t2 md).success = true := by rw [← cs]; exact hs
      rw [pageProcess_of_success hs, pageProcess_of_success hs2]
      exact ⟨ce, cm, rfl, rfl, cb⟩
    · have hs' := Bool.not_eq_true _ |>.mp hs
      have hs2' : (attemptSeq env2 inc pn i 3 j t2 md).success = false := by rw [← cs]; exact hs'
      cases d with
      | retry =>
        rw [pageProcess_of_fail_retry hs', pageProcess_of_fail_retry hs2']
        rw [← ca, ← cm]
        rcases ih (attemptSeq env1 inc pn i 3 j t1 md).attemptIdx
          (attemptSeq env1 inc pn i 3 j t1 md).ticks
          (attemptSeq env2 inc pn i 3 j t2 md).ticks
          (attemptSeq env1 inc pn i 3 j t1 md).md with ⟨re, rm, rd, ro, rb⟩
        refine ⟨?_, rm, rd, ro, ?_⟩
        · rw [ce, re]
        · rw [cb, rb]
      | skip =>
        rw [pageProcess_of_fail_skip hs', pageProcess_of_fail_skip hs2']
        refine ⟨?_, cm, rfl, rfl, cb⟩
        rw [ce]
      | endConv =>
        rw [pageProcess_of_fail_endConv hs', pageProcess_of_fail_endConv hs2']
        refine ⟨?_, cm, rfl, rfl, cb⟩
        rw [ce]
      | other =>
        rw [pageProcess_of_fail_other hs', pageProcess_of_fail_other hs2']
        refine ⟨?_, cm, rfl, rfl, cb⟩
        rw [ce]

theorem pagesLoop_md_congr {env1 env2 : Env} {inc : Bool} {sp p : Nat}
    (h1 : env1.cancelAt = none) (h2 : env2.cancelAt = none)
    (hne : ∀ k a, k ≠ p → env1.attempts (sp - 1 + k) a = env2.attempts (sp - 1 + k) a)
    (hp : ∀ (t1 t2 : Nat) (md : String) (ds : List UserChoice),
      (pageProcess env1 inc (sp - 1 + p) p 0 t1 md ds).md
          = (pageProcess env2 inc (sp - 1 + p) p 0 t2 md ds).md ∧
        (pageProcess env1 inc (sp - 1 + p) p 0 t1 md ds).decisions
          = (pageProcess env2 inc (sp - 1 + p) p 0 t2 md ds).decisions ∧
        (pageProcess env1 inc (sp - 1 + p) p 0 t1 md ds).outcome
          = (pageProcess env2 inc (sp - 1 + p) p 0 t2 md ds).outcome) :
    ∀ (fuel i t1 t2 : Nat) (md : String) (ds : List UserChoice),
      (pagesLoop env1 inc sp fuel i t1 md ds).md = (pagesLoop env2 inc sp fuel i t2 md ds).md ∧
        (pagesLoop env1 inc sp fuel i t1 md ds).exit
          = (pagesLoop env2 inc sp fuel i t2 md ds).exit ∧
        (pagesLoop env1 inc sp fuel i t1 md ds).decisions
          = (pagesLoop env2 inc sp fuel i t2 md ds).decisions := by
  intro fuel
  induction fuel with
  | zero => intro i t1 t2 md ds; simp [pagesLoop_zero]
  | succ fuel ih =>
    intro i t1 t2 md ds
    have hr1 : flagAt env1.cancelAt t1 = true := by rw [h1]; rfl
    have hr2 : flagAt env2.cancelAt t2 = true := by rw [h2]; rfl
    have hpage : (pageProcess env1 inc (sp - 1 + i) i 0 (t1 + 1) md ds).md
        = (pageProcess env2 inc (sp - 1 + i) i 0 (t2 + 1) md ds).md ∧
        (pageProcess env1 inc (sp - 1 + i) i 0 (t1 + 1) md ds).decisions
          = (pageProcess env2 inc (sp - 1 + i) i 0 (t2 + 1) md ds).decisions ∧
        (pageProcess env1 inc (sp - 1 + i) i 0 (t1 + 1) md ds).outcome
          = (pageProcess env2 inc (sp - 1 + i) i 0 (t2 + 1) md ds).outcome := by
      by_cases hip : i = p
      · subst hip
        exact hp (t1 + 1) (t2 + 1) md ds
      · rcases pageProcess_congr h1 h2 (fun a => hne i a hip) ds 0 (t1 + 1) (t2 + 1) md with
          ⟨_, cm, cd, co, _⟩
        exact ⟨cm, cd, co⟩
    rcases hpage with ⟨cm, cd, co⟩
    rcases hq : (pageProcess env1 inc (sp - 1 + i) i 0 (t1 + 1) md ds).outcome with _ | _ | _
    · have hq2 : (pageProcess env2 inc (sp - 1 + i) i 0 (t2 + 1) md ds).outcome = .proceed := by
        rw [← co]; exact hq
      rw [pagesLoop_proceed hr1 hq, pagesLoop_proceed hr2 hq2]
      rw [← cm, ← cd]
      exact ih (i + 1) (pageProcess env1 inc (sp - 1 + i) i 0 (t1 + 1) md ds).ticks
        (pageProcess env2 inc (sp - 1 + i) i 0 (t2 + 1) md ds).ticks
        (pageProcess env1 inc (sp - 1 + i) i 0 (t1 + 1) md ds).md
        (pageProcess env1 inc (sp - 1 + i) i 0 (t1 + 1) md ds).decisions
    · have hq2 : (pageProcess env2 inc (sp - 1 + i) i 0 (t2 + 1) md ds).outcome = .abortEnd := by
        rw [← co]; exact hq
      rw [pagesLoop_abort hr1 hq, pagesLoop_abort hr2 hq2]
      exact ⟨cm, rfl, cd⟩
    · have hq2 : (pageProcess env2 inc (sp - 1 + i) i 0 (t2 + 1) md ds).outcome = .blockedWait := by
        rw [← co]; exact hq
      rw [pagesLoop_blocked hr1 hq, pagesLoop_blocked hr2 hq2]
      exact ⟨cm, rfl, cd⟩

/-! ## Remaining helper lemmas -/

theorem finished_filter_nil {evs : List Event} (h : finishedCount evs = 0) :
    evs.filter Event.isFinished = [] := by
  simpa [finishedCount, List.length_eq_zero] using h

theorem runAttempt_renderFail {env : Env} {inc : Bool} {pn i j t : Nat} {md : String}
    (h : env.attempts pn j = .failure []) :
    runAttempt env inc pn i j t md = ⟨[], t, md, true, false⟩ := by
  unfold runAttempt
  rw [h]
  simp only [AttemptOutcome.isFailure, AttemptOutcome.frags]
  rw [show streamConsume env.cancelAt (i + 1) [] t "" = ⟨[], "", t, false⟩ from rfl]
  rw [attemptFinish_of_fail (by simp)]

theorem attemptSeq_renderFail3 {env : Env} {inc : Bool} {pn i j t : Nat} {md : String}
    (h0 : env.attempts pn j = .failure []) (h1 : env.attempts pn (j + 1) = .failure [])
    (h2 : env.attempts pn (j + 2) = .failure []) :
    attemptSeq env inc pn i 3 j t md =
      ⟨[Event.sleep 2, Event.sleep 2], j + 3, t, md, false, false⟩ := by
  have ha0 := @runAttempt_renderFail env inc pn i j t md h0
  rw [show (3 : Nat) = 1 + 2 from rfl, attemptSeq_succ2_exc (by rw [ha0])]
  rw [ha0]
  simp only
  have ha1 := @runAttempt_renderFail env inc pn i (j + 1) t md h1
  rw [show (1 + 1 : Nat) = 0 + 2 from rfl, attemptSeq_succ2_exc (by rw [ha1])]
  rw [ha1]
  simp only
  have ha2 := @runAttempt_renderFail env inc pn i (j + 2) t md h2
  rw [attemptSeq_one_exc (by rw [ha2])]
  rw [ha2]
  simp only
  refine congrArg (fun x => SeqRes.mk x (j + 3) t md false false) ?_
  rfl

theorem pageProcess_escalates {env : Env} {inc : Bool} {pn i j t : Nat} {md : String}
    {ds : List UserChoice} (hs : (attemptSeq env inc pn i 3 j t md).success = false) :
    ∃ rest, (pageProcess env inc pn i j t md ds).events
      = (attemptSeq env inc pn i 3 j t md).events ++ Event.escalate (i + 1) :: rest := by
  cases ds with
  | nil =>
    rw [pageProcess_of_fail_nil hs]
    exact ⟨[], rfl⟩
  | cons d ds =>
    cases d with
    | retry =>
      rw [pageProcess_of_fail_retry hs]
      refine ⟨(pageProcess env inc pn i (attemptSeq env inc pn i 3 j t md).attemptIdx
        (attemptSeq env inc pn i 3 j t md).ticks (attemptSeq env inc pn i 3 j t md).md
        ds).events, ?_⟩
      simp
    | skip =>
      rw [pageProcess_of_fail_skip hs]
      exact ⟨[], rfl⟩
    | endConv =>
      rw [pageProcess_of_fail_endConv hs]
      refine ⟨[Event.error "Conversion ended by user."], ?_⟩
      simp
    | other =>
      rw [pageProcess_of_fail_other hs]
      exact ⟨[], rfl⟩

theorem run_allSuccess_fields (env : Env) (sp ep : Nat) (inc : Bool) (F : Nat → List String)
    (hc : env.cancelAt = none) (hsetup : env.setup = none)
    (hF : ∀ k, k < ep - (sp - 1) → env.attempts (sp - 1 + k) 0 = .ok (F k)) :
    (PdfConverter.run env sp ep inc).events
        = rangeEvents F 0 (ep - (sp - 1))
          ++ [Event.finished (pyStrip (rangeMd inc F 0 (ep - (sp - 1))))] ∧
      (PdfConverter.run env sp ep inc).md = rangeMd inc F 0 (ep - (sp - 1)) ∧
      (PdfConverter.run env sp ep inc).exit = .normal ∧
      (PdfConverter.run env sp ep inc).finalRunning = true := by
  rcases @pagesLoop_allSuccess env inc sp F (ep - (sp - 1)) 0 0 "" env.decisions hc
    (by intro k h0 hk; exact hF k (by omega)) with ⟨e1, e2, e3, e4, e5⟩
  have hflag : flagAt env.cancelAt
      (pagesLoop env inc sp (ep - (sp - 1)) 0 0 "" env.decisions).ticks = true := by
    rw [hc]; rfl
  rw [PdfConverter.run_normal_finished hsetup e4 hflag]
  rw [e1, e2, String.empty_append]
  exact ⟨rfl, rfl, rfl, rfl⟩

/-! ## Claims -/

/-- Claim C1, counterexample: a job in which every page succeeds on its first
attempt (here: one page whose stream is empty), with markers enabled and no
cancellation or abort.  The claim predicts the delivered Markdown to be the
concatenation of per-page texts each preceded by its marker (trimmed), i.e.
`--- Page 1 ---`; the code delivers `""` because the `if page_response:` guard
(src/app.py line 73) skips the marker and the block entirely for an empty
page. -/
theorem c1_counterexample :
    (PdfConverter.run envAllEmpty 1 1 true).events
        = [Event.progress 1 "No content generated.", Event.finished ""] ∧
      specC1Markdown true [""] = "--- Page 1 ---" ∧
      ("" : String) ≠ specC1Markdown true [""] :=
  ⟨by decide, by decide, by decide⟩

/-- Claim C1 (amended): for every conversion job in which every page in the
range succeeds on its first attempt and the job is never cancelled or aborted,
the Markdown delivered by the finished event equals the concatenation, in
ascending page order, of the per-page blocks, where a page with nonempty text
contributes its page-marker header (iff the include-page-markers flag is set)
followed by its text and a blank line, and a page with empty text contributes
nothing (not even its marker); the whole result's leading and trailing
whitespace is trimmed, and the ordinal used in markers and progress events is
the page's 1-based position within the requested range (`rangeEvents` and
`rangeMd` use `i + 1`, not the absolute index `startPage - 1 + i`). -/
theorem c1_output_concatenation (env : Env) (sp ep : Nat) (inc : Bool) (F : Nat → List String)
    (hc : env.cancelAt = none) (hsetup : env.setup = none)
    (hF : ∀ k, k < ep - (sp - 1) → env.attempts (sp - 1 + k) 0 = .ok (F k)) :
    (PdfConverter.run env sp ep inc).events
        = rangeEvents F 0 (ep - (sp - 1))
          ++ [Event.finished (pyStrip (rangeMd inc F 0 (ep - (sp - 1))))] ∧
      (PdfConverter.run env sp ep inc).exit = .normal ∧
      (PdfConverter.run env sp ep inc).finalRunning = true := by
  rcases run_allSuccess_fields env sp ep inc F hc hsetup hF with ⟨h1, _, h3, h4⟩
  exact ⟨h1, h3, h4⟩

/-- Witness for C1 (amended), at a concrete two-page job. -/
theorem c1_output_concatenation_witness :
    (PdfConverter.run envHelloWorld 1 2 true).events
        = rangeEvents (fun k => [if k = 0 then "Hello" else "World"]) 0 (2 - (1 - 1))
          ++ [Event.finished (pyStrip
              (rangeMd true (fun k => [if k = 0 then "Hello" else "World"]) 0 (2 - (1 - 1))))] ∧
      (PdfConverter.run envHelloWorld 1 2 true).exit = .normal ∧
      (PdfConverter.run envHelloWorld 1 2 true).finalRunning = true := by
  refine c1_output_concatenation envHelloWorld 1 2 true
    (fun k => [if k = 0 then "Hello" else "World"]) rfl rfl ?_
  intro k hk
  rcases k with _ | _ | n
  · rfl
  · rfl
  · exact absurd hk (by omega)

/-- Claim C2, counterexample: with markers enabled, the code appends
`--- Page 1 ---\nHello\n\n` for a page whose text is `Hello` — the marker line
is immediately followed by the text, with no blank line between them, whereas
the claim's format (`specC2Block`) puts a blank line after the marker line. -/
theorem c2_counterexample :
    (PdfConverter.run envHelloWorld 1 2 true).md
        = pageBlock true 1 "Hello" ++ pageBlock true 2 "World" ∧
      pageBlock true 1 "Hello" = "--- Page 1 ---\nHello\n\n" ∧
      specC2Block 1 "Hello" = "--- Page 1 ---\n\nHello\n\n" ∧
      pageBlock true 1 "Hello" ≠ specC2Block 1 "Hello" :=
  ⟨by decide, by decide, by decide, by decide⟩

/-- Claim C2 (amended): when the include-page-markers flag is set, every
nonempty page's contribution to the accumulated Markdown has the format: the
literal line `--- Page N ---` on its own line, immediately followed by the
page's text (no blank line between marker and text), then a blank line before
the next marker (N being the page's 1-based range-relative ordinal); and on an
all-success run the accumulated Markdown is exactly the concatenation of these
blocks. -/
theorem c2_contribution_format :
    (∀ (o : Nat) (s : String), s ≠ "" →
        successBlock true o s = "--- Page " ++ toString o ++ " ---\n" ++ s ++ "\n\n") ∧
      ∀ (env : Env) (sp ep : Nat) (F : Nat → List String),
        env.cancelAt = none → env.setup = none →
        (∀ k, k < ep - (sp - 1) → env.attempts (sp - 1 + k) 0 = .ok (F k)) →
        (PdfConverter.run env sp ep true).md = rangeMd true F 0 (ep - (sp - 1)) := by
  constructor
  · intro o s hs
    simp [successBlock, pageBlock, hs, String.append_assoc]
  · intro env sp ep F hc hsetup hF
    exact (run_allSuccess_fields env sp ep true F hc hsetup hF).2.1

/-- Witness for C2 (amended). -/
theorem c2_contribution_format_witness :
    successBlock true 1 "Hello" = "--- Page " ++ toString 1 ++ " ---\n" ++ "Hello" ++ "\n\n" ∧
      (PdfConverter.run envHelloWorld 1 2 true).md
        = rangeMd true (fun k => [if k = 0 then "Hello" else "World"]) 0 (2 - (1 - 1)) := by
  constructor
  · exact c2_contribution_format.1 1 "Hello" (by decide)
  · refine c2_contribution_format.2 envHelloWorld 1 2
      (fun k => [if k = 0 then "Hello" else "World"]) rfl rfl ?_
    intro k hk
    rcases k with _ | _ | n
    · rfl
    · rfl
    · exact absurd hk (by omega)

/-- Claim C3, counterexample: a page that renders and streams successfully but
produces empty text.  The progress event with status `"No content generated."`
is emitted, but the page contributes nothing to the accumulated Markdown — in
particular no page-marker header, although markers are enabled — whereas the
claim predicts the marker (`specC3EmptyContribution`) to be present. -/
theorem c3_counterexample :
    (PdfConverter.run envAllEmpty 1 1 true).md = "" ∧
      (PdfConverter.run envAllEmpty 1 1 true).events
        = [Event.progress 1 "No content generated.", Event.finished ""] ∧
      specC3EmptyContribution 1 = "--- Page 1 ---\n" ∧
      specC3EmptyContribution 1 ≠ "" :=
  ⟨by decide, by decide, by decide, by decide⟩

/-- Claim C3 (amended): for every page whose render and stream complete
successfully but produce empty text (no cancellation), the driver emits a
progress event with status `"No content generated."` tagged with that page's
range-relative ordinal, and the page contributes nothing to the accumulated
Markdown: no text and no page-marker header, even when markers are enabled
(the result's `md` equals the incoming `md`). -/
theorem c3_empty_page_behavior (env : Env) (inc : Bool) (pn i t : Nat) (md : String)
    (ds : List UserChoice) (frags : List String)
    (hc : env.cancelAt = none) (hok : env.attempts pn 0 = .ok frags)
    (hempty : String.join frags = "") :
    pageProcess env inc pn i 0 t md ds =
      ⟨frags.map (Event.progress (i + 1)) ++ [Event.progress (i + 1) "No content generated."],
        t + frags.length + 1, md, ds, .proceed, false⟩ := by
  rw [@pageProcess_none_firstOk env inc pn i 0 t md frags hc hok ds]
  simp [successEvents, successBlock, hempty, String.append_empty]

/-- Witness for C3 (amended): an empty page leaves `final_markdown` (here
pre-seeded with `"X"`) untouched and emits only the status event. -/
theorem c3_empty_page_behavior_witness :
    pageProcess envAllEmpty true 7 0 0 5 "X" [] =
      ⟨[Event.progress 1 "No content generated."], 6, "X", [], .proceed, false⟩ := by
  have h := c3_empty_page_behavior envAllEmpty true 7 0 5 "X" [] [] rfl rfl rfl
  simpa using h

/-- Claim C4: the retry policy of the per-page loop.  (1) A retry budget of 3
makes at most 3 attempts before the page succeeds or the budget is exhausted.
(2) Every backoff the loop performs is the fixed `time.sleep(2)` — each sleep
event in the retry loop's trace carries exactly 2 seconds.  (3) A page whose
render raises on three consecutive attempts performs exactly those 3 attempts,
sleeping 2 seconds after each failed attempt except the last, and exhausts the
budget.  (4) When the budget is exhausted the driver raises exactly one
escalation naming the page's range-relative ordinal `i + 1` before consuming a
decision.  (5) An operator `retry` decision restarts the page with the attempt
count reset to 0, i.e. with the full budget of 3 (`attemptSeq ... 3` at attempt
index `j + 3`), after the single escalation. -/
theorem c4_retry_policy :
    (∀ (env : Env) (inc : Bool) (pn i j t : Nat) (md : String),
        (attemptSeq env inc pn i 3 j t md).attemptIdx ≤ j + 3) ∧
      (∀ (env : Env) (inc : Bool) (pn i n j t : Nat) (md : String) (s : Nat),
        Event.sleep s ∈ (attemptSeq env inc pn i n j t md).events → s = 2) ∧
      (∀ (env : Env) (inc : Bool) (pn i j t : Nat) (md : String),
        env.attempts pn j = .failure [] → env.attempts pn (j + 1) = .failure [] →
        env.attempts pn (j + 2) = .failure [] →
        attemptSeq env inc pn i 3 j t md
          = ⟨[Event.sleep 2, Event.sleep 2], j + 3, t, md, false, false⟩) ∧
      (∀ (env : Env) (inc : Bool) (pn i j t : Nat) (md : String) (ds : List UserChoice),
        (attemptSeq env inc pn i 3 j t md).success = false →
        ∃ rest, (pageProcess env inc pn i j t md ds).events
          = (attemptSeq env inc pn i 3 j t md).events ++ Event.escalate (i + 1) :: rest) ∧
      (∀ (env : Env) (inc : Bool) (pn i j t : Nat) (md : String) (ds : List UserChoice),
        env.attempts pn j = .failure [] → env.attempts pn (j + 1) = .failure [] →
        env.attempts pn (j + 2) = .failure [] →
        pageProcess env inc pn i j t md (.retry :: ds)
          = ⟨[Event.sleep 2, Event.sleep 2, Event.escalate (i + 1)]
              ++ (pageProcess env inc pn i (j + 3) t md ds).events,
            (pageProcess env inc pn i (j + 3) t md ds).ticks,
            (pageProcess env inc pn i (j + 3) t md ds).md,
            (pageProcess env inc pn i (j + 3) t md ds).decisions,
            (pageProcess env inc pn i (j + 3) t md ds).outcome,
            (pageProcess env inc pn i (j + 3) t md ds).broke⟩) := by
  refine ⟨?_, ?_, ?_, ?_, ?_⟩
  · intro env inc pn i j t md
    exact attemptSeq_attemptIdx_le env inc pn i 3 j t md
  · intro env inc pn i n j t md s hmem
    rcases attemptSeq_events_shape hmem with ⟨txt, he⟩ | he
    · exact absurd he (by simp)
    · simpa using he
  · intro env inc pn i j t md h0 h1 h2
    exact attemptSeq_renderFail3 h0 h1 h2
  · intro env inc pn i j t md ds hs
    exact pageProcess_escalates hs
  · intro env inc pn i j t md ds h0 h1 h2
    have hseq := @attemptSeq_renderFail3 env inc pn i j t md h0 h1 h2
    have hs : (attemptSeq env inc pn i 3 j t md).success = false := by rw [hseq]
    rw [pageProcess_of_fail_retry hs]
    rw [hseq]
    simp

/-- Witness for C4, at a page whose render always fails and a `retry` then
`skip` decision sequence. -/
theorem c4_retry_policy_witness :
    (attemptSeq envRenderFail true 0 0 3 0 0 "").attemptIdx ≤ 0 + 3 ∧
      (2 : Nat) = 2 ∧
      attemptSeq envRenderFail true 0 0 3 0 0 ""
        = ⟨[Event.sleep 2, Event.sleep 2], 0 + 3, 0, "", false, false⟩ ∧
      (∃ rest, (pageProcess envRenderFail true 0 0 0 0 "" [.skip]).events
        = (attemptSeq envRenderFail true 0 0 3 0 0 "").events
          ++ Event.escalate (0 + 1) :: rest) ∧
      pageProcess envRenderFail true 0 0 0 0 "" (.retry :: [.skip])
        = ⟨[Event.sleep 2, Event.sleep 2, Event.escalate (0 + 1)]
            ++ (pageProcess envRenderFail true 0 0 (0 + 3) 0 "" [.skip]).events,
          (pageProcess envRenderFail true 0 0 (0 + 3) 0 "" [.skip]).ticks,
          (pageProcess envRenderFail true 0 0 (0 + 3) 0 "" [.skip]).md,
          (pageProcess envRenderFail true 0 0 (0 + 3) 0 "" [.skip]).decisions,
          (pageProcess envRenderFail true 0 0 (0 + 3) 0 "" [.skip]).outcome,
          (pageProcess envRenderFail true 0 0 (0 + 3) 0 "" [.skip]).broke⟩ := by
  refine ⟨c4_retry_policy.1 envRenderFail true 0 0 0 0 "",
    c4_retry_policy.2.1 envRenderFail true 0 0 3 0 0 "" 2 (by decide),
    c4_retry_policy.2.2.1 envRenderFail true 0 0 0 0 "" rfl rfl rfl,
    c4_retry_policy.2.2.2.1 envRenderFail true 0 0 0 0 "" [.skip] (by decide),
    c4_retry_policy.2.2.2.2 envRenderFail true 0 0 0 0 "" [.skip] rfl rfl rfl⟩

/-- Claim C5: whenever the operator resolves an escalation with `end`
(the spec's `abort`), the invocation returns with the running flag cleared,
the trace contains exactly one error event — `"Conversion ended by user."`,
the last event, immediately after the escalation for the aborted page — no
finished event, and no event of any page after the aborted one (every event
ordinal is at most the aborted page's ordinal `q + 1`). -/
theorem c5_abort_behavior (env : Env) (sp ep : Nat) (inc : Bool)
    (hsetup : env.setup = none)
    (habort : (PdfConverter.run env sp ep inc).exit = .aborted) :
    (PdfConverter.run env sp ep inc).finalRunning = false ∧
      errorCount (PdfConverter.run env sp ep inc).events = 1 ∧
      finishedCount (PdfConverter.run env sp ep inc).events = 0 ∧
      ∃ q, (∃ pre, (PdfConverter.run env sp ep inc).events
          = pre ++ [Event.escalate (q + 1), Event.error "Conversion ended by user."]) ∧
        ∀ e ∈ (PdfConverter.run env sp ep inc).events, ∀ o, e.ordinal = some o → o ≤ q + 1 := by
  rcases hL : (pagesLoop env inc sp (ep - (sp - 1)) 0 0 "" env.decisions).exit with _ | _ | _
  · by_cases hf : flagAt env.cancelAt
        (pagesLoop env inc sp (ep - (sp - 1)) 0 0 "" env.decisions).ticks = true
    · rw [PdfConverter.run_normal_finished hsetup hL hf] at habort
      simp at habort
    · rw [PdfConverter.run_normal_stopped hsetup hL (by simpa using hf)] at habort
      simp at habort
  · rw [PdfConverter.run_aborted hsetup hL] at habort ⊢
    have hec := pagesLoop_errorCount env inc sp (ep - (sp - 1)) 0 0 "" env.decisions
    rw [hL] at hec
    simp only [if_pos rfl] at hec
    rcases pagesLoop_abort_ex hL with ⟨q, _, ⟨pre, hpre⟩, hord⟩
    exact ⟨rfl, hec, pagesLoop_finishedCount env inc sp (ep - (sp - 1)) 0 0 "" env.decisions,
      q, ⟨pre, hpre⟩, hord⟩
  · rw [PdfConverter.run_blocked hsetup hL] at habort
    simp at habort

/-- Witness for C5: two pages, the first always failing to render, the
operator answering `end`. -/
theorem c5_abort_behavior_witness :
    (PdfConverter.run envAbortFirst 1 2 false).exit = .aborted ∧
      ((PdfConverter.run envAbortFirst 1 2 false).finalRunning = false ∧
        errorCount (PdfConverter.run envAbortFirst 1 2 false).events = 1 ∧
        finishedCount (PdfConverter.run envAbortFirst 1 2 false).events = 0 ∧
        ∃ q, (∃ pre, (PdfConverter.run envAbortFirst 1 2 false).events
            = pre ++ [Event.escalate (q + 1), Event.error "Conversion ended by user."]) ∧
          ∀ e ∈ (PdfConverter.run envAbortFirst 1 2 false).events, ∀ o,
            e.ordinal = some o → o ≤ q + 1) :=
  ⟨by decide, c5_abort_behavior envAbortFirst 1 2 false rfl (by decide)⟩

/-- Claim C6: if cancellation is observed at a per-fragment or end-of-stream
check while page `p` is streaming (recorded as `brokeAt = some p`), the page
loop exits normally at the next outer check, no page after `p` is processed
(every event ordinal is at most `p`), the invocation returns with the running
flag cleared, and neither a finished nor an error event is ever emitted. -/
theorem c6_cancellation_mid_stream (env : Env) (sp ep : Nat) (inc : Bool) (p : Nat)
    (hsetup : env.setup = none)
    (hbroke : (PdfConverter.run env sp ep inc).brokeAt = some p) :
    (PdfConverter.run env sp ep inc).exit = .normal ∧
      (PdfConverter.run env sp ep inc).finalRunning = false ∧
      finishedCount (PdfConverter.run env sp ep inc).events = 0 ∧
      errorCount (PdfConverter.run env sp ep inc).events = 0 ∧
      ∀ e ∈ (PdfConverter.run env sp ep inc).events, ∀ o, e.ordinal = some o → o ≤ p := by
  rcases hL : (pagesLoop env inc sp (ep - (sp - 1)) 0 0 "" env.decisions).exit with _ | _ | _
  · by_cases hf : flagAt env.cancelAt
        (pagesLoop env inc sp (ep - (sp - 1)) 0 0 "" env.decisions).ticks = true
    · rw [PdfConverter.run_normal_finished hsetup hL hf] at hbroke
      rcases pagesLoop_broke_ex hbroke with ⟨_, _, _, hflag⟩
      rw [hflag] at hf
      simp at hf
    · rw [PdfConverter.run_normal_stopped hsetup hL (by simpa using hf)] at hbroke ⊢
      rcases pagesLoop_broke_ex hbroke with ⟨_, _, hord, _⟩
      have hec := pagesLoop_errorCount env inc sp (ep - (sp - 1)) 0 0 "" env.decisions
      rw [hL] at hec
      refine ⟨rfl, rfl,
        pagesLoop_finishedCount env inc sp (ep - (sp - 1)) 0 0 "" env.decisions, ?_, hord⟩
      simpa using hec
  · rw [PdfConverter.run_aborted hsetup hL] at hbroke
    rcases pagesLoop_broke_ex hbroke with ⟨hexit, _, _, _⟩
    rw [hL] at hexit
    simp at hexit
  · rw [PdfConverter.run_blocked hsetup hL] at hbroke
    rcases pagesLoop_broke_ex hbroke with ⟨hexit, _, _, _⟩
    rw [hL] at hexit
    simp at hexit

/-- Witness for C6: `stop()` takes effect during the first page's stream. -/
theorem c6_cancellation_mid_stream_witness :
    (PdfConverter.run envCancelMid 1 2 true).brokeAt = some 1 ∧
      ((PdfConverter.run envCancelMid 1 2 true).exit = .normal ∧
        (PdfConverter.run envCancelMid 1 2 true).finalRunning = false ∧
        finishedCount (PdfConverter.run envCancelMid 1 2 true).events = 0 ∧
        errorCount (PdfConverter.run envCancelMid 1 2 true).events = 0 ∧
        ∀ e ∈ (PdfConverter.run envCancelMid 1 2 true).events, ∀ o,
          e.ordinal = some o → o ≤ 1) :=
  ⟨by decide, c6_cancellation_mid_stream envCancelMid 1 2 true 1 rfl (by decide)⟩

/-- Claim C7: every invocation emits at most one terminal event, and the
finished and error signals are mutually exclusive: the trace contains exactly
one finished event iff the invocation exits normally with the running flag
still set (full successful completion), exactly one error event iff it exits
by operator abort or by a fatal setup failure, and neither when the job ends
by observed cancellation (normal exit with the flag cleared). -/
theorem c7_terminal_events (env : Env) (sp ep : Nat) (inc : Bool) :
    finishedCount (PdfConverter.run env sp ep inc).events
        = (if (PdfConverter.run env sp ep inc).exit = .normal
            ∧ (PdfConverter.run env sp ep inc).finalRunning = true then 1 else 0) ∧
      errorCount (PdfConverter.run env sp ep inc).events
        = (if (PdfConverter.run env sp ep inc).exit = .aborted
            ∨ (PdfConverter.run env sp ep inc).exit = .fatal then 1 else 0) ∧
      finishedCount (PdfConverter.run env sp ep inc).events
          + errorCount (PdfConverter.run env sp ep inc).events ≤ 1 ∧
      ((PdfConverter.run env sp ep inc).exit = .normal
          ∧ (PdfConverter.run env sp ep inc).finalRunning = false →
        finishedCount (PdfConverter.run env sp ep inc).events = 0 ∧
          errorCount (PdfConverter.run env sp ep inc).events = 0) := by
  have main : finishedCount (PdfConverter.run env sp ep inc).events
        = (if (PdfConverter.run env sp ep inc).exit = .normal
            ∧ (PdfConverter.run env sp ep inc).finalRunning = true then 1 else 0) ∧
      errorCount (PdfConverter.run env sp ep inc).events
        = (if (PdfConverter.run env sp ep inc).exit = .aborted
            ∨ (PdfConverter.run env sp ep inc).exit = .fatal then 1 else 0) := by
    rcases hst : env.setup with _ | msg
    · have hfc := pagesLoop_finishedCount env inc sp (ep - (sp - 1)) 0 0 "" env.decisions
      have hec := pagesLoop_errorCount env inc sp (ep - (sp - 1)) 0 0 "" env.decisions
      rcases hL : (pagesLoop env inc sp (ep - (sp - 1)) 0 0 "" env.decisions).exit with _ | _ | _
      · by_cases hf : flagAt env.cancelAt
            (pagesLoop env inc sp (ep - (sp - 1)) 0 0 "" env.decisions).ticks = true
        · rw [PdfConverter.run_normal_finished hst hL hf]
          rw [hL] at hec
          simp only at hec ⊢
          rw [finishedCount_append, errorCount_append, hfc, hec]
          constructor
          · simp [finishedCount, Event.isFinished]
          · simp [errorCount, Event.isError]
        · rw [PdfConverter.run_normal_stopped hst hL (by simpa using hf)]
          rw [hL] at hec
          simp only at hec ⊢
          rw [hfc, hec]
          constructor
          · simp
          · simp
      · rw [PdfConverter.run_aborted hst hL]
        rw [hL] at hec
        simp only at hec ⊢
        rw [hfc, hec]
        constructor
        · simp
        · simp
      · rw [PdfConverter.run_blocked hst hL]
        rw [hL] at hec
        simp only at hec ⊢
        rw [hfc, hec]
        constructor
        · simp
        · simp
    · rw [PdfConverter.run_fatal hst]
      constructor
      · simp [finishedCount, Event.isFinished]
      · simp [errorCount, Event.isError]
  rcases main with ⟨hfc, hec⟩
  refine ⟨hfc, hec, ?_, ?_⟩
  · rw [hfc, hec]
    by_cases h1 : (PdfConverter.run env sp ep inc).exit = .normal
        ∧ (PdfConverter.run env sp ep inc).finalRunning = true
    · have hnot : ¬((PdfConverter.run env sp ep inc).exit = .aborted
          ∨ (PdfConverter.run env sp ep inc).exit = .fatal) := by
        rintro (h | h) <;> rw [h1.1] at h <;> simp at h
      rw [if_pos h1, if_neg hnot]
    · rw [if_neg h1]
      split <;> omega
  · rintro ⟨hn, hfr⟩
    have hnot1 : ¬((PdfConverter.run env sp ep inc).exit = .normal
        ∧ (PdfConverter.run env sp ep inc).finalRunning = true) := by
      rintro ⟨_, h2⟩
      rw [hfr] at h2
      simp at h2
    have hnot2 : ¬((PdfConverter.run env sp ep inc).exit = .aborted
        ∨ (PdfConverter.run env sp ep inc).exit = .fatal) := by
      rintro (h | h) <;> rw [hn] at h <;> simp at h
    rw [hfc, hec, if_neg hnot1, if_neg hnot2]
    exact ⟨rfl, rfl⟩

/-- Claim C8: retries are invisible in the output.  Two invocations that are
never cancelled, identical except that in the first one page `p` fails exactly
`k < 3` times (with arbitrary partial fragment lists `g`) before succeeding
with fragments `F`, while in the second that page succeeds with `F` on its
first attempt, deliver identical final Markdown, identical exit kinds and an
identical (at most one-element) list of finished events. -/
theorem c8_retries_invisible (env1 env2 : Env) (sp ep : Nat) (inc : Bool) (p k : Nat)
    (g : Nat → List String) (F : List String)
    (hc1 : env1.cancelAt = none) (hc2 : env2.cancelAt = none)
    (hs1 : env1.setup = none) (hs2 : env2.setup = none)
    (hds : env1.decisions = env2.decisions)
    (hk : k < 3)
    (hfail : ∀ a, a < k → env1.attempts (sp - 1 + p) a = .failure (g a))
    (hok1 : env1.attempts (sp - 1 + p) k = .ok F)
    (hok2 : ∀ a, env2.attempts (sp - 1 + p) a = .ok F)
    (hne : ∀ q a, q ≠ p → env1.attempts (sp - 1 + q) a = env2.attempts (sp - 1 + q) a) :
    (PdfConverter.run env1 sp ep inc).md = (PdfConverter.run env2 sp ep inc).md ∧
      (PdfConverter.run env1 sp ep inc).exit = (PdfConverter.run env2 sp ep inc).exit ∧
      (PdfConverter.run env1 sp ep inc).events.filter Event.isFinished
        = (PdfConverter.run env2 sp ep inc).events.filter Event.isFinished := by
  have hp : ∀ (t1 t2 : Nat) (md : String) (ds : List UserChoice),
      (pageProcess env1 inc (sp - 1 + p) p 0 t1 md ds).md
          = (pageProcess env2 inc (sp - 1 + p) p 0 t2 md ds).md ∧
        (pageProcess env1 inc (sp - 1 + p) p 0 t1 md ds).decisions
          = (pageProcess env2 inc (sp - 1 + p) p 0 t2 md ds).decisions ∧
        (pageProcess env1 inc (sp - 1 + p) p 0 t1 md ds).outcome
          = (pageProcess env2 inc (sp - 1 + p) p 0 t2 md ds).outcome := by
    intro t1 t2 md ds
    rcases @pageProcess_none_failsThenOk env1 inc (sp - 1 + p) p 0 t1 md k g F ds hc1 hk
      (by intro a ha; rw [Nat.zero_add]; exact hfail a ha) (by rw [Nat.zero_add]; exact hok1)
      with ⟨o1, m1, d1, _⟩
    have h2 := @pageProcess_none_firstOk env2 inc (sp - 1 + p) p 0 t2 md F hc2 (hok2 0) ds
    rw [m1, d1, o1, h2]
    exact ⟨rfl, rfl, rfl⟩
  have hcong := @pagesLoop_md_congr env1 env2 inc sp p hc1 hc2 hne hp (ep - (sp - 1)) 0 0 0 ""
    env1.decisions
  rcases hcong with ⟨cmd, cexit, _⟩
  have hfc1 := pagesLoop_finishedCount env1 inc sp (ep - (sp - 1)) 0 0 "" env1.decisions
  have hfc2 := pagesLoop_finishedCount env2 inc sp (ep - (sp - 1)) 0 0 "" env1.decisions
  rcases hL1 : (pagesLoop env1 inc sp (ep - (sp - 1)) 0 0 "" env1.decisions).exit with _ | _ | _
  · have hL2 : (pagesLoop env2 inc sp (ep - (sp - 1)) 0 0 "" env2.decisions).exit
        = .normal := by
      rw [← hds, ← cexit]
      exact hL1
    have hf1 : flagAt env1.cancelAt
        (pagesLoop env1 inc sp (ep - (sp - 1)) 0 0 "" env1.decisions).ticks = true := by
      rw [hc1]; rfl
    have hf2 : flagAt env2.cancelAt
        (pagesLoop env2 inc sp (ep - (sp - 1)) 0 0 "" env2.decisions).ticks = true := by
      rw [hc2]; rfl
    rw [PdfConverter.run_normal_finished hs1 hL1 hf1,
      PdfConverter.run_normal_finished hs2 hL2 hf2]
    rw [← hds]
    refine ⟨cmd, rfl, ?_⟩
    rw [List.filter_append, List.filter_append, finished_filter_nil hfc1,
      finished_filter_nil hfc2]
    simp only [List.nil_append]
    rw [cmd]
  · have hL2 : (pagesLoop env2 inc sp (ep - (sp - 1)) 0 0 "" env2.decisions).exit
        = .aborted := by
      rw [← hds, ← cexit]
      exact hL1
    rw [PdfConverter.run_aborted hs1 hL1, PdfConverter.run_aborted hs2 hL2]
    rw [← hds]
    exact ⟨cmd, rfl, by rw [finished_filter_nil hfc1, finished_filter_nil hfc2]⟩
  · have hL2 : (pagesLoop env2 inc sp (ep - (sp - 1)) 0 0 "" env2.decisions).exit
        = .blocked := by
      rw [← hds, ← cexit]
      exact hL1
    rw [PdfConverter.run_blocked hs1 hL1, PdfConverter.run_blocked hs2 hL2]
    rw [← hds]
    exact ⟨cmd, rfl, by rw [finished_filter_nil hfc1, finished_filter_nil hfc2]⟩

/-- Witness for C8: page 0 fails once with fragment `"x"` then succeeds with
`"Hi"`, versus succeeding immediately; page 1 (`"o"`) is identical in both. -/
theorem c8_retries_invisible_witness :
    (PdfConverter.run envFailOnceThenOk 1 2 true).md
        = (PdfConverter.run envOkFirst 1 2 true).md ∧
      (PdfConverter.run envFailOnceThenOk 1 2 true).exit
        = (PdfConverter.run envOkFirst 1 2 true).exit ∧
      (PdfConverter.run envFailOnceThenOk 1 2 true).events.filter Event.isFinished
        = (PdfConverter.run envOkFirst 1 2 true).events.filter Event.isFinished := by
  refine c8_retries_invisible envFailOnceThenOk envOkFirst 1 2 true 0 1 (fun _ => ["x"]) ["Hi"]
    rfl rfl rfl rfl rfl (by omega) ?_ rfl (fun a => rfl) ?_
  · intro a ha
    interval_cases a
    rfl
  · intro q a hq
    simp only [envFailOnceThenOk, envOkFirst]
    have : 1 - 1 + q = q := by omega
    rw [this, if_neg hq, if_neg hq]

/-- Claim C9: when the driver resumes from an escalation with the decision
slot holding any value other than `retry`, `skip` or `end` (modelled by
`UserChoice.other`, e.g. the slot left `None`), every `elif` branch falls
through: the page is abandoned without being marked succeeded, nothing is
appended to the accumulated Markdown (`md` is returned unchanged), no error
and no finished event is emitted, and the driver advances to the next page in
the range (outcome `proceed`, and the page loop continues with page `i + 1`). -/
theorem c9_unrecognized_decision :
    (∀ (env : Env) (inc : Bool) (pn i j t : Nat) (md : String) (ds : List UserChoice),
        (attemptSeq env inc pn i 3 j t md).success = false →
        pageProcess env inc pn i j t md (.other :: ds)
            = ⟨(attemptSeq env inc pn i 3 j t md).events ++ [Event.escalate (i + 1)],
                (attemptSeq env inc pn i 3 j t md).ticks, md, ds, .proceed,
                (attemptSeq env inc pn i 3 j t md).broke⟩ ∧
          errorCount (pageProcess env inc pn i j t md (.other :: ds)).events = 0 ∧
          finishedCount (pageProcess env inc pn i j t md (.other :: ds)).events = 0) ∧
      ∀ (env : Env) (inc : Bool) (sp fuel i t : Nat) (md : String) (ds : List UserChoice),
        flagAt env.cancelAt t = true →
        (attemptSeq env inc (sp - 1 + i) i 3 0 (t + 1) md).success = false →
        pagesLoop env inc sp (fuel + 1) i t md (.other :: ds)
          = ⟨(pageProcess env inc (sp - 1 + i) i 0 (t + 1) md (.other :: ds)).events
              ++ (pagesLoop env inc sp fuel (i + 1)
                  (pageProcess env inc (sp - 1 + i) i 0 (t + 1) md (.other :: ds)).ticks
                  (pageProcess env inc (sp - 1 + i) i 0 (t + 1) md (.other :: ds)).md
                  (pageProcess env inc (sp - 1 + i) i 0 (t + 1) md (.other :: ds)).decisions).events,
            (pagesLoop env inc sp fuel (i + 1)
              (pageProcess env inc (sp - 1 + i) i 0 (t + 1) md (.other :: ds)).ticks
              (pageProcess env inc (sp - 1 + i) i 0 (t + 1) md (.other :: ds)).md
              (pageProcess env inc (sp - 1 + i) i 0 (t + 1) md (.other :: ds)).decisions).ticks,
            (pagesLoop env inc sp fuel (i + 1)
              (pageProcess env inc (sp - 1 + i) i 0 (t + 1) md (.other :: ds)).ticks
              (pageProcess env inc (sp - 1 + i) i 0 (t + 1) md (.other :: ds)).md
              (pageProcess env inc (sp - 1 + i) i 0 (t + 1) md (.other :: ds)).decisions).md,
            (pagesLoop env inc sp fuel (i + 1)
              (pageProcess env inc (sp - 1 + i) i 0 (t + 1) md (.other :: ds)).ticks
              (pageProcess env inc (sp - 1 + i) i 0 (t + 1) md (.other :: ds)).md
              (pageProcess env inc (sp - 1 + i) i 0 (t + 1) md (.other :: ds)).decisions).decisions,
            (pagesLoop env inc sp fuel (i + 1)
              (pageProcess env inc (sp - 1 + i) i 0 (t + 1) md (.other :: ds)).ticks
              (pageProcess env inc (sp - 1 + i) i 0 (t + 1) md (.other :: ds)).md
              (pageProcess env inc (sp - 1 + i) i 0 (t + 1) md (.other :: ds)).decisions).exit,
            if (pageProcess env inc (sp - 1 + i) i 0 (t + 1) md (.other :: ds)).broke
            then some (i + 1)
            else (pagesLoop env inc sp fuel (i + 1)
              (pageProcess env inc (sp - 1 + i) i 0 (t + 1) md (.other :: ds)).ticks
              (pageProcess env inc (sp - 1 + i) i 0 (t + 1) md (.other :: ds)).md
              (pageProcess env inc (sp - 1 + i) i 0 (t + 1) md (.other :: ds)).decisions).brokeAt⟩ := by
  have part1 : ∀ (env : Env) (inc : Bool) (pn i j t : Nat) (md : String) (ds : List UserChoice),
      (attemptSeq env inc pn i 3 j t md).success = false →
      pageProcess env inc pn i j t md (.other :: ds)
          = ⟨(attemptSeq env inc pn i 3 j t md).events ++ [Event.escalate (i + 1)],
              (attemptSeq env inc pn i 3 j t md).ticks, md, ds, .proceed,
              (attemptSeq env inc pn i 3 j t md).broke⟩ ∧
        errorCount (pageProcess env inc pn i j t md (.other :: ds)).events = 0 ∧
        finishedCount (pageProcess env inc pn i j t md (.other :: ds)).events = 0 := by
    intro env inc pn i j t md ds hs
    have heq : pageProcess env inc pn i j t md (.other :: ds)
        = ⟨(attemptSeq env inc pn i 3 j t md).events ++ [Event.escalate (i + 1)],
            (attemptSeq env inc pn i 3 j t md).ticks, md, ds, .proceed,
            (attemptSeq env inc pn i 3 j t md).broke⟩ := by
      rw [pageProcess_of_fail_other hs, attemptSeq_md_of_fail hs]
    refine ⟨heq, ?_, ?_⟩
    · rw [heq]
      simp only [errorCount_append]
      rw [errorCount_eq_zero ?_, errorCount_eq_zero ?_]
      · intro e he
        simp only [List.mem_singleton] at he
        rw [he]; rfl
      · intro e he
        rcases attemptSeq_events_shape he with ⟨txt, h⟩ | h <;> rw [h] <;> rfl
    · rw [heq]
      simp only [finishedCount_append]
      rw [finishedCount_eq_zero ?_, finishedCount_eq_zero ?_]
      · intro e he
        simp only [List.mem_singleton] at he
        rw [he]; rfl
      · intro e he
        rcases attemptSeq_events_shape he with ⟨txt, h⟩ | h <;> rw [h] <;> rfl
  refine ⟨part1, ?_⟩
  intro env inc sp fuel i t md ds hflag hs
  have ho : (pageProcess env inc (sp - 1 + i) i 0 (t + 1) md (.other :: ds)).outcome
      = .proceed := by
    rw [(part1 env inc (sp - 1 + i) i 0 (t + 1) md ds hs).1]
  exact pagesLoop_proceed hflag ho

/-- Witness for C9, at a page whose render always fails and the decision slot
holding an unrecognised value. -/
theorem c9_unrecognized_decision_witness :
    (pageProcess envOtherDecision true 0 0 0 0 "" [.other]
        = ⟨(attemptSeq envOtherDecision true 0 0 3 0 0 "").events ++ [Event.escalate (0 + 1)],
            (attemptSeq envOtherDecision true 0 0 3 0 0 "").ticks, "", [], .proceed,
            (attemptSeq envOtherDecision true 0 0 3 0 0 "").broke⟩ ∧
      errorCount (pageProcess envOtherDecision true 0 0 0 0 "" [.other]).events = 0 ∧
      finishedCount (pageProcess envOtherDecision true 0 0 0 0 "" [.other]).events = 0) ∧
      pagesLoop envOtherDecision true 1 (0 + 1) 0 0 "" [.other]
        = ⟨(pageProcess envOtherDecision true (1 - 1 + 0) 0 0 (0 + 1) "" [.other]).events
            ++ (pagesLoop envOtherDecision true 1 0 (0 + 1)
                (pageProcess envOtherDecision true (1 - 1 + 0) 0 0 (0 + 1) "" [.other]).ticks
                (pageProcess envOtherDecision true (1 - 1 + 0) 0 0 (0 + 1) "" [.other]).md
                (pageProcess envOtherDecision true (1 - 1 + 0) 0 0 (0 + 1) "" [.other]).decisions).events,
          (pagesLoop envOtherDecision true 1 0 (0 + 1)
            (pageProcess envOtherDecision true (1 - 1 + 0) 0 0 (0 + 1) "" [.other]).ticks
            (pageProcess envOtherDecision true (1 - 1 + 0) 0 0 (0 + 1) "" [.other]).md
            (pageProcess envOtherDecision true (1 - 1 + 0) 0 0 (0 + 1) "" [.other]).decisions).ticks,
          (pagesLoop envOtherDecision true 1 0 (0 + 1)
            (pageProcess envOtherDecision true (1 - 1 + 0) 0 0 (0 + 1) "" [.other]).ticks
            (pageProcess envOtherDecision true (1 - 1 + 0) 0 0 (0 + 1) "" [.other]).md
            (pageProcess envOtherDecision true (1 - 1 + 0) 0 0 (0 + 1) "" [.other]).decisions).md,
          (pagesLoop envOtherDecision true 1 0 (0 + 1)
            (pageProcess envOtherDecision true (1 - 1 + 0) 0 0 (0 + 1) "" [.other]).ticks
            (pageProcess envOtherDecision true (1 - 1 + 0) 0 0 (0 + 1) "" [.other]).md
            (pageProcess envOtherDecision true (1 - 1 + 0) 0 0 (0 + 1) "" [.other]).decisions).decisions,
          (pagesLoop envOtherDecision true 1 0 (0 + 1)
            (pageProcess envOtherDecision true (1 - 1 + 0) 0 0 (0 + 1) "" [.other]).ticks
            (pageProcess envOtherDecision true (1 - 1 + 0) 0 0 (0 + 1) "" [.other]).md
            (pageProcess envOtherDecision true (1 - 1 + 0) 0 0 (0 + 1) "" [.other]).decisions).exit,
          if (pageProcess envOtherDecision true (1 - 1 + 0) 0 0 (0 + 1) "" [.other]).broke
          then some (0 + 1)
          else (pagesLoop envOtherDecision true 1 0 (0 + 1)
            (pageProcess envOtherDecision true (1 - 1 + 0) 0 0 (0 + 1) "" [.other]).ticks
            (pageProcess envOtherDecision true (1 - 1 + 0) 0 0 (0 + 1) "" [.other]).md
            (pageProcess envOtherDecision true (1 - 1 + 0) 0 0 (0 + 1) "" [.other]).decisions).brokeAt⟩ :=
  ⟨c9_unrecognized_decision.1 envOtherDecision true 0 0 0 0 "" [] (by decide),
    c9_unrecognized_decision.2 envOtherDecision true 1 0 0 0 "" [] rfl (by decide)⟩

/-- Claim C10: a `stop()` request while an escalation is outstanding does not
interrupt the blocked wait.  The escalation handling reads the `is_running`
flag nowhere: for every cancellation schedule — including one under which
every flag read already returns false — an exhausted page still emits its
escalation and the operator's decision is consumed and honoured (`skip`
advances with the decision list consumed; `retry` restarts the page with a
fresh budget).  Moreover, once `stop()` has been requested by the end of the
page loop (`cancelAt = some t` with `t ≤` the final tick count), the
invocation never emits a finished event, whatever the resolutions were. -/
theorem c10_stop_during_escalation :
    (∀ (env : Env) (inc : Bool) (pn i j t : Nat) (md : String) (ds : List UserChoice),
        (attemptSeq env inc pn i 3 j t md).success = false →
        pageProcess env inc pn i j t md (.skip :: ds)
          = ⟨(attemptSeq env inc pn i 3 j t md).events ++ [Event.escalate (i + 1)],
              (attemptSeq env inc pn i 3 j t md).ticks, (attemptSeq env inc pn i 3 j t md).md,
              ds, .proceed, (attemptSeq env inc pn i 3 j t md).broke⟩) ∧
      (∀ (env : Env) (inc : Bool) (pn i j t : Nat) (md : String) (ds : List UserChoice),
        (attemptSeq env inc pn i 3 j t md).success = false →
        ∃ rest, (pageProcess env inc pn i j t md (.retry :: ds)).events
          = (attemptSeq env inc pn i 3 j t md).events ++ Event.escalate (i + 1)
            :: (pageProcess env inc pn i (attemptSeq env inc pn i 3 j t md).attemptIdx
                (attemptSeq env inc pn i 3 j t md).ticks (attemptSeq env inc pn i 3 j t md).md
                ds).events ++ rest) ∧
      ∀ (env : Env) (sp ep t : Nat) (inc : Bool),
        env.setup = none → env.cancelAt = some t →
        t ≤ (PdfConverter.run env sp ep inc).ticks →
        finishedCount (PdfConverter.run env sp ep inc).events = 0 := by
  refine ⟨?_, ?_, ?_⟩
  · intro env inc pn i j t md ds hs
    exact pageProcess_of_fail_skip hs ds
  · intro env inc pn i j t md ds hs
    rw [pageProcess_of_fail_retry hs]
    refine ⟨[], ?_⟩
    simp
  · intro env sp ep t inc hst hc hle
    rcases hL : (pagesLoop env inc sp (ep - (sp - 1)) 0 0 "" env.decisions).exit with _ | _ | _
    · by_cases hf : flagAt env.cancelAt
          (pagesLoop env inc sp (ep - (sp - 1)) 0 0 "" env.decisions).ticks = true
      · rw [PdfConverter.run_normal_finished hst hL hf] at hle ⊢
        rw [hc] at hf
        simp only [flagAt, decide_eq_true_eq] at hf
        simp only at hle
        omega
      · rw [PdfConverter.run_normal_stopped hst hL (by simpa using hf)]
        exact pagesLoop_finishedCount env inc sp (ep - (sp - 1)) 0 0 "" env.decisions
    · rw [PdfConverter.run_aborted hst hL]
      exact pagesLoop_finishedCount env inc sp (ep - (sp - 1)) 0 0 "" env.decisions
    · rw [PdfConverter.run_blocked hst hL]
      exact pagesLoop_finishedCount env inc sp (ep - (sp - 1)) 0 0 "" env.decisions

/-- Witness for C10: render always fails, the operator answers `skip` while
`stop()` has already taken effect (`cancelAt = some 1`, second flag read). -/
theorem c10_stop_during_escalation_witness :
    pageProcess envStopDuringEscalation false 0 0 0 9 "" [.skip]
        = ⟨(attemptSeq envStopDuringEscalation false 0 0 3 0 9 "").events
            ++ [Event.escalate (0 + 1)],
            (attemptSeq envStopDuringEscalation false 0 0 3 0 9 "").ticks,
            (attemptSeq envStopDuringEscalation false 0 0 3 0 9 "").md, [], .proceed,
            (attemptSeq envStopDuringEscalation false 0 0 3 0 9 "").broke⟩ ∧
      (∃ rest, (pageProcess envStopDuringEscalation false 0 0 0 9 "" [.retry]).events
          = (attemptSeq envStopDuringEscalation false 0 0 3 0 9 "").events
            ++ Event.escalate (0 + 1)
              :: (pageProcess envStopDuringEscalation false 0 0
                  (attemptSeq envStopDuringEscalation false 0 0 3 0 9 "").attemptIdx
                  (attemptSeq envStopDuringEscalation false 0 0 3 0 9 "").ticks
                  (attemptSeq envStopDuringEscalation false 0 0 3 0 9 "").md
                  []).events ++ rest) ∧
      finishedCount (PdfConverter.run envStopDuringEscalation 1 1 false).events = 0 :=
  ⟨c10_stop_during_escalation.1 envStopDuringEscalation false 0 0 0 9 "" [] (by decide),
    c10_stop_during_escalation.2.1 envStopDuringEscalation false 0 0 0 9 "" [] (by decide),
    c10_stop_during_escalation.2.2 envStopDuringEscalation 1 1 1 false rfl rfl (by decide)⟩
